import Mathlib

/-! # Contiguous frame pool (`MP3/cont_frame_pool.C`)

A shallow embedding of `ContFramePool`: the packed two-bit bitmap, the
constructor, `get_frames`, `mark_inaccessible` and the static `release_frames`
that walks the list of pools.

Conventions of the embedding.
* The target is the 32-bit x86 kernel, so `unsigned int` and `unsigned long`
  are both 32 bits wide; counters and sums that can wrap are reduced modulo
  `WORD`.
* `bitmap` is the byte memory the `unsigned char * bitmap` pointer designates,
  indexed by byte offset; it is total, so reads past the bytes the pool owns
  see whatever that memory holds.
* `assert` halts the kernel: an operation yields `Outcome.aborted` with the
  state at the point of the failed assertion.
-/

set_option autoImplicit false

namespace ContFramePool

/-- Modelled from the spec: the header `cont_frame_pool.H`, which declares the
constant `FRAME_SIZE`, is not among the sources; the spec fixes a 4096-byte
frame, which agrees with the `8*4 KB` bits per frame in `needed_info_frames`. -/
def FRAME_SIZE : Nat := 4096

/-- Number of values of a 32-bit `unsigned int` / `unsigned long`. -/
def WORD : Nat := 2 ^ 32

/-- Bit convention of the source: Free `00`. -/
def FREE : Nat := 0
/-- Bit convention of the source: Not Accessible `01`. -/
def INACCESSIBLE : Nat := 1
/-- Bit convention of the source: Allocated and Head `10`. -/
def HEAD_OF_SEQUENCE : Nat := 2
/-- Bit convention of the source: Allocated not Head `11`. -/
def ALLOCATED_CONTINUATION : Nat := 3

/-- The data members of a `ContFramePool` object. -/
structure Pool where
  base_frame_no : Nat
  nframes : Nat
  nFreeFrames : Nat
  info_frame_no : Nat
  n_info_frames : Nat
  bitmap : Nat → Nat

/-- Result of a member function: it either returns a value, or an `assert`
fails; both carry the pool as it is at that point. -/
inductive Outcome (α : Type) where
  | returned (v : α) (p : Pool)
  | aborted (p : Pool)

/-- The pool a call leaves behind. -/
def Outcome.pool {α : Type} : Outcome α → Pool
  | .returned _ p => p
  | .aborted p => p

/-- Whether the call ended in a failed assertion. -/
def Outcome.isAborted {α : Type} : Outcome α → Bool
  | .returned _ _ => false
  | .aborted _ => true

/-- The two bits of slot `j` (0 is the most significant pair) of byte `b`:
the pair that the masks `0xC0 >> 2*j` of the source select. -/
def slot (b j : Nat) : Nat := (b >>> (6 - 2 * j)) % 4

/-- State of the frame at offset `k` from the pool's base: byte `k / 4`,
slot `k % 4`, as in `mark_inaccessible` and `release_frames`. -/
def frame_state (bitmap : Nat → Nat) (k : Nat) : Nat := slot (bitmap (k / 4)) (k % 4)

/-! ## `get_frames` -/

/-- Local variables of the search loop of `get_frames` that outlive an
iteration of the outer loop. -/
structure Scan where
  head_frame_no : Nat
  byte_index : Nat
  bit_index : Nat
  tempHeadFound : Nat
  frames_to_be_found : Nat

/-- The inner `for (int j = 0; j < 4; j++)` loop of the search, with `left`
iterations to go, about to run iteration `j` with the current `filter_mask`.
The last branch is the `break`. -/
def scan_bits (bitmap : Nat → Nat) (base n i : Nat) : Nat → Nat → Nat → Scan → Scan
  | 0, _, _, s => s
  | left + 1, j, filter_mask, s =>
    if s.tempHeadFound = 0 then
      if bitmap i &&& filter_mask = 0 then
        scan_bits bitmap base n i left (j + 1) (filter_mask >>> 2)
          { head_frame_no := (s.head_frame_no + (4 * i + j)) % WORD
            byte_index := i
            bit_index := j
            tempHeadFound := 1
            frames_to_be_found := (s.frames_to_be_found + (WORD - 1)) % WORD }
      else
        scan_bits bitmap base n i left (j + 1) (filter_mask >>> 2) s
    else if s.frames_to_be_found > 0 then
      if bitmap i &&& filter_mask = 0 then
        scan_bits bitmap base n i left (j + 1) (filter_mask >>> 2)
          { s with frames_to_be_found := s.frames_to_be_found - 1 }
      else
        scan_bits bitmap base n i left (j + 1) (filter_mask >>> 2)
          { head_frame_no := base
            byte_index := 0
            bit_index := 0
            tempHeadFound := 0
            frames_to_be_found := n }
    else s

/-- The outer `for (int i = 0; i < nframes/4; i++)` loop of the search, with
`left` bytes to go, about to look at byte `i`. -/
def scan_bytes (bitmap : Nat → Nat) (base n : Nat) : Nat → Nat → Scan → Scan
  | 0, _, s => s
  | left + 1, i, s =>
    let s1 := scan_bits bitmap base n i 4 0 0xC0 s
    if s1.frames_to_be_found = 0 then s1 else scan_bytes bitmap base n left (i + 1) s1

/-- The whole search of `get_frames(n)`: the state of its locals when the
loops are left. -/
def search (p : Pool) (n : Nat) : Scan :=
  scan_bytes p.bitmap p.base_frame_no n (p.nframes / 4) 0
    { head_frame_no := p.base_frame_no
      byte_index := 0
      bit_index := 0
      tempHeadFound := 0
      frames_to_be_found := n }

/-- The loop `while (to_be_marked > 0 && bit_index < 4)` that marks the frames
after the head inside the head's byte; `left` is `4 - bit_index`, the number of
slots that remain in the byte. Returns the bitmap and `to_be_marked`. -/
def mark_same_byte (byte_index : Nat) :
    Nat → (Nat → Nat) → Nat → Nat → Nat → (Nat → Nat) × Nat
  | 0, bitmap, to_be_marked, _, _ => (bitmap, to_be_marked)
  | left + 1, bitmap, to_be_marked, bit_index, not_head_mask =>
    if to_be_marked > 0 ∧ bit_index < 4 then
      mark_same_byte byte_index left
        (Function.update bitmap byte_index (bitmap byte_index ||| not_head_mask))
        (to_be_marked - 1) (bit_index + 1) (not_head_mask >>> 2)
    else (bitmap, to_be_marked)

/-- The inner `for (int j = 0; j < 4; j++)` loop of the marking of the bytes
after the head's byte. -/
def mark_bits (i : Nat) : Nat → (Nat → Nat) → Nat → Nat → (Nat → Nat) × Nat
  | 0, bitmap, to_be_marked, _ => (bitmap, to_be_marked)
  | left + 1, bitmap, to_be_marked, not_head_mask =>
    if to_be_marked = 0 then (bitmap, to_be_marked)
    else
      mark_bits i left (Function.update bitmap i (bitmap i ||| not_head_mask))
        (to_be_marked - 1) (not_head_mask >>> 2)

/-- The outer loop `for (int i = byte_index+1; i < nframes/4; i++)` of the
marking, with `left` bytes to go. -/
def mark_bytes : Nat → Nat → (Nat → Nat) → Nat → (Nat → Nat) × Nat
  | 0, _, bitmap, to_be_marked => (bitmap, to_be_marked)
  | left + 1, i, bitmap, to_be_marked =>
    let r := mark_bits i 4 bitmap to_be_marked 0xC0
    if r.2 = 0 then r else mark_bytes left (i + 1) r.1 r.2

/-- The member function `ContFramePool::get_frames(unsigned int _n_frames)`. -/
def get_frames (p : Pool) (n : Nat) : Outcome Nat :=
  if ¬ (p.nFreeFrames > n) then .aborted p
  else
    let s := search p n
    if s.frames_to_be_found ≠ 0 then .returned 0 p
    else
      let head_mask := 0x80 >>> (2 * s.bit_index)
      let bitmap1 := Function.update p.bitmap s.byte_index (p.bitmap s.byte_index ||| head_mask)
      let to_be_marked := (n + (WORD - 1)) % WORD
      let bit_index := s.bit_index + 1
      let not_head_mask := 0xC0 >>> (2 * bit_index)
      let r1 := mark_same_byte s.byte_index (4 - bit_index) bitmap1 to_be_marked bit_index
        not_head_mask
      let r2 := mark_bytes (p.nframes / 4 - (s.byte_index + 1)) (s.byte_index + 1) r1.1 r1.2
      .returned s.head_frame_no { p with bitmap := r2.1, nFreeFrames := p.nFreeFrames - n }

/-! ## `mark_inaccessible` -/

/-- The one-frame overload `mark_inaccessible(unsigned long _frame_no)`. -/
def mark_inaccessible_frame (p : Pool) (frame_no : Nat) : Outcome Unit :=
  if ¬ (frame_no ≥ p.base_frame_no ∧ frame_no < (p.base_frame_no + p.nframes) % WORD) then
    .aborted p
  else
    let frame_byte_no := (frame_no - p.base_frame_no) / 4
    let frame_bit_no := (frame_no - p.base_frame_no) % 4
    let filter_mask := 0xC0 >>> (2 * frame_bit_no)
    let inacess_mask := 0x80 >>> (2 * frame_bit_no)
    if ¬ (p.bitmap frame_byte_no &&& filter_mask = 0) then .aborted p
    else
      .returned ()
        { p with
          bitmap := Function.update p.bitmap frame_byte_no
            ((p.bitmap frame_byte_no ||| filter_mask) ^^^ inacess_mask)
          nFreeFrames := (p.nFreeFrames + (WORD - 1)) % WORD }

/-- The loop of the range overload, with `left` frames to go, about to mark
frame `i`. -/
def mark_inaccessible_loop : Nat → Nat → Pool → Outcome Unit
  | 0, _, p => .returned () p
  | left + 1, i, p =>
    match mark_inaccessible_frame p i with
    | .aborted q => .aborted q
    | .returned _ q => mark_inaccessible_loop left (i + 1) q

/-- The range overload `mark_inaccessible(_base_frame_no, _n_frames)`:
`for (i = _base_frame_no; i < _base_frame_no + _n_frames; i++)`, the bound
being a 32-bit sum; the loop runs as many times as the bound exceeds the start. -/
def mark_inaccessible (p : Pool) (base_frame_no n_frames : Nat) : Outcome Unit :=
  mark_inaccessible_loop ((base_frame_no + n_frames) % WORD - base_frame_no) base_frame_no p

/-! ## `release_frames` -/

/-- How a call of the static `release_frames` ends. Every case but `nullHead`
is a normal return of the function. -/
inductive Released where
  /-- The head test passed and the body ran. -/
  | released
  /-- The branch that prints "Not a head of sequence". -/
  | notHead
  /-- The branch that prints "Frame not found in any pool." and returns. -/
  | notFound
  /-- The list of pools is empty: `cont_frame_pool_head` is dereferenced while NULL. -/
  | nullHead
  deriving DecidableEq, Repr

/-- The loop `while (bit_index < 4)` of `release_frames`, `left` being
`4 - bit_index`. By C precedence the test `bitmap[byte_index] & bit_mask == bit_mask`
is `bitmap[byte_index] & (bit_mask == bit_mask)`, and the statement
`bitmap[byte_index] == ...` in the body is a comparison, so the bitmap is not
written. Returns whether the function returned from inside the loop, and
`nFreeFrames`. -/
def release_same_byte (bitmap : Nat → Nat) (byte_index : Nat) :
    Nat → Nat → Nat → Nat → Bool × Nat
  | 0, _, _, nFreeFrames => (false, nFreeFrames)
  | left + 1, bit_index, bit_mask, nFreeFrames =>
    if bit_index < 4 then
      if bitmap byte_index &&& (if bit_mask = bit_mask then 1 else 0) ≠ 0 then
        release_same_byte bitmap byte_index left (bit_index + 1) (bit_mask >>> 2)
          ((nFreeFrames + 1) % WORD)
      else (true, nFreeFrames)
    else (false, nFreeFrames)

/-- The inner `for (int j = 0; j < 4; j++)` loop over a later byte. The test
`bitmap[i] && bit_mask == bit_mask` is `bitmap[i] && (bit_mask == bit_mask)`,
and the body again only compares. Returns whether the function returned from
inside the loop, and `nFreeFrames`. -/
def release_bits (bitmap : Nat → Nat) (i : Nat) : Nat → Nat → Nat → Bool × Nat
  | 0, _, nFreeFrames => (false, nFreeFrames)
  | left + 1, bit_mask, nFreeFrames =>
    if bitmap i ≠ 0 ∧ bit_mask = bit_mask then
      release_bits bitmap i left (bit_mask >>> 2) ((nFreeFrames + 1) % WORD)
    else (true, nFreeFrames)

/-- The outer loop `for (int i = byte_index+1; i < (base_frame_no + nframes)/4; i++)`,
with `left` bytes to go. Returns `nFreeFrames` at the return of the function. -/
def release_bytes (bitmap : Nat → Nat) : Nat → Nat → Nat → Nat
  | 0, _, nFreeFrames => nFreeFrames
  | left + 1, i, nFreeFrames =>
    let r := release_bits bitmap i 4 0xC0 nFreeFrames
    if r.1 then r.2 else release_bytes bitmap left (i + 1) r.2

/-- The part of `release_frames` that runs once `current_pool` is found. For a
byte `b` and a byte mask `m`, `b & (~m)` is `b &&& (0xFF ^^^ m)`. -/
def release_in (p : Pool) (first_frame_no : Nat) : Released × Pool :=
  let frames_diff := first_frame_no - p.base_frame_no
  let byte_index := frames_diff / 4
  let bit_index := frames_diff % 4
  let head_mask := 0x40 >>> (bit_index * 2)
  let bit_mask := 0xC0 >>> (bit_index * 2)
  if (p.bitmap byte_index ^^^ head_mask) &&& bit_mask = bit_mask then
    let bitmap1 := Function.update p.bitmap byte_index (p.bitmap byte_index &&& (0xFF ^^^ bit_mask))
    let nFree1 := (p.nFreeFrames + 1) % WORD
    let r := release_same_byte bitmap1 byte_index (4 - (bit_index + 1)) (bit_index + 1)
      (bit_mask >>> 2) nFree1
    if r.1 then (.released, { p with bitmap := bitmap1, nFreeFrames := r.2 })
    else
      (.released,
        { p with
          bitmap := bitmap1
          nFreeFrames := release_bytes bitmap1
            ((p.base_frame_no + p.nframes) % WORD / 4 - (byte_index + 1)) (byte_index + 1) r.2 })
  else (.notHead, p)

/-- The static `ContFramePool::release_frames(unsigned long _first_frame_no)`
over the list of pools in registration order, `cont_frame_pool_head` first. -/
def release_frames : List Pool → Nat → Released × List Pool
  | [], _ => (.nullHead, [])
  | p :: rest, first_frame_no =>
    if p.base_frame_no > first_frame_no ∨
        (p.base_frame_no + p.nframes) % WORD ≤ first_frame_no then
      match rest with
      | [] => (.notFound, [p])
      | q :: rest1 =>
        let r := release_frames (q :: rest1) first_frame_no
        (r.1, p :: r.2)
    else
      let r := release_in p first_frame_no
      (r.1, r.2 :: rest)

/-! ## The constructor -/

/-- The loop `for (int i = 0; i*4 < _n_frames; i++) bitmap[i] = 0x00`, `left`
being the number of iterations that remain, `(_n_frames + 3) / 4` at the start. -/
def init_bitmap (n_frames : Nat) : Nat → Nat → (Nat → Nat) → (Nat → Nat)
  | 0, _, bitmap => bitmap
  | left + 1, i, bitmap =>
    if i * 4 < n_frames then init_bitmap n_frames left (i + 1) (Function.update bitmap i 0x00)
    else bitmap

/-- The pool once the constructor has assigned the data members and cleared
the bitmap; `mem` is what the memory at the bitmap's address holds beforehand. -/
def initial_pool (mem : Nat → Nat) (base_frame_no n_frames info_frame_no n_info_frames : Nat) :
    Pool :=
  { base_frame_no := base_frame_no
    nframes := n_frames
    nFreeFrames := n_frames
    info_frame_no := info_frame_no
    n_info_frames := n_info_frames
    bitmap := init_bitmap n_frames ((n_frames + 3) / 4) 0 mem }

/-- The body of the constructor `ContFramePool(_base_frame_no, _n_frames,
_info_frame_no, _n_info_frames)` up to the registration; `mem` is what the
memory at the bitmap's address holds beforehand. `none`: an assertion failed,
no pool comes into being. -/
def construct (mem : Nat → Nat) (base_frame_no n_frames info_frame_no n_info_frames : Nat) :
    Option Pool :=
  if ¬ (n_frames ≤ FRAME_SIZE * 8) then none
  else if ¬ (n_frames % 8 = 0) then none
  else
    let p : Pool := initial_pool mem base_frame_no n_frames info_frame_no n_info_frames
    if info_frame_no = 0 then
      if n_info_frames > 0 then
        match mark_inaccessible p info_frame_no n_info_frames with
        | .returned _ q => some q
        | .aborted _ => none
      else
        some { p with
          bitmap := Function.update p.bitmap 0 0x40
          nFreeFrames := (p.nFreeFrames + (WORD - 1)) % WORD }
    else some p

/-- The end of the constructor: the new pool is linked at the tail of the
list of pools. -/
def register (pools : List Pool) (p : Pool) : List Pool := pools ++ [p]

/-! ## Predicates used in the statements -/

/-- The `n` frames at offsets `a .. a+n-1` are all FREE. -/
def run_free (bm : Nat → Nat) (a n : Nat) : Prop :=
  ∀ t, a ≤ t → t < a + n → frame_state bm t = FREE

/-- What the locals of the search hold once the frames at offsets below `k`
have been looked at: either no head is pending and no run of `n` FREE frames
starts below `k`, or a head at offset `h` is pending, the frames found so far
are FREE and reach up to `k`, and no run starts below `h`. -/
def ScanInv (bm : Nat → Nat) (base n k : Nat) (s : Scan) : Prop :=
  (s.tempHeadFound = 0 ∧ s.frames_to_be_found = n ∧ s.head_frame_no = base ∧
    s.byte_index = 0 ∧ s.bit_index = 0 ∧ ∀ a < k, ¬ run_free bm a n)
  ∨ (∃ h, s.tempHeadFound = 1 ∧ s.head_frame_no = base + h ∧ s.byte_index = h / 4 ∧
      s.bit_index = h % 4 ∧ s.frames_to_be_found < n ∧
      run_free bm h (n - s.frames_to_be_found) ∧
      h + (n - s.frames_to_be_found) ≤ k ∧
      (0 < s.frames_to_be_found → h + (n - s.frames_to_be_found) = k) ∧
      ∀ a < h, ¬ run_free bm a n)

/-- The frames `a .. a+c-1` of `bm1` are ALLOCATED_CONTINUATION, the others are as in `bm`. -/
def MarkedFrom (bm bm1 : Nat → Nat) (a c : Nat) : Prop :=
  (∀ x, bm1 x < 256) ∧
  ∀ t, frame_state bm1 t = if a ≤ t ∧ t < a + c then 3 else frame_state bm t

/-- Frame number `f` lies in the range `[base_frame_no, base_frame_no + nframes)` of `p`. -/
def in_pool (p : Pool) (f : Nat) : Prop :=
  p.base_frame_no ≤ f ∧ f < p.base_frame_no + p.nframes

/-- The frame ranges of the pools of the list are pairwise disjoint. -/
def disjoint_ranges (pools : List Pool) : Prop :=
  pools.Pairwise (fun a b => ∀ f, ¬ (in_pool a f ∧ in_pool b f))

/-- What the types and the constructor's assertions guarantee of a pool: the
bitmap holds bytes, `nframes` passed `assert((nframes % 8) == 0)`, the 32-bit
counter `nFreeFrames` is in range, and the frame numbers `base_frame_no ..
base_frame_no + nframes` are 32-bit numbers. -/
def Pool.wf (p : Pool) : Prop :=
  (∀ x, p.bitmap x < 256) ∧ p.nframes % 8 = 0 ∧ p.nFreeFrames < WORD ∧
    p.base_frame_no + p.nframes < WORD

/-- State of frame number `f` in pool `p`. -/
def Pool.state (p : Pool) (f : Nat) : Nat := frame_state p.bitmap (f - p.base_frame_no)

/-! ## Pools used as examples -/

/-- The pool of the spec's scenario: `base_frame_no = 100`, 32 frames, the
bitmap kept in an external info frame, every frame FREE. -/
def pool_100_32 : Pool :=
  { base_frame_no := 100
    nframes := 32
    nFreeFrames := 32
    info_frame_no := 99
    n_info_frames := 1
    bitmap := fun _ => 0x00 }

/-- A fragmented pool of 8 frames at base 100: the even frames are heads of
one-frame runs, the odd frames are FREE. -/
def pool_fragmented : Pool :=
  { base_frame_no := 100
    nframes := 8
    nFreeFrames := 4
    info_frame_no := 99
    n_info_frames := 1
    bitmap := fun i => if i < 2 then 0x88 else 0x00 }

/-- The first pool of the spec's two-pool scenario, frames `[0, 64)`, all FREE. -/
def pool_0_64 : Pool :=
  { base_frame_no := 0
    nframes := 64
    nFreeFrames := 64
    info_frame_no := 200
    n_info_frames := 1
    bitmap := fun _ => 0x00 }

/-- The second pool of the spec's two-pool scenario, frames `[64, 128)`, in
which frame 70 (offset 6: byte 1, slot 2) heads a one-frame run. -/
def pool_64_128 : Pool :=
  { base_frame_no := 64
    nframes := 64
    nFreeFrames := 63
    info_frame_no := 201
    n_info_frames := 1
    bitmap := fun i => if i = 1 then 0x08 else 0x00 }

/-- A run of calls that uses up a pool: the self-managed pool of 8 frames at
base 512 is constructed, then `get_frames(3)` (frames 513 .. 515),
`release_frames(513)`, `get_frames(1)` (frame 513) and `get_frames(4)` (frames
516 .. 519) are called. The value is the pool after the last call. -/
def exhausted_pool : Option Pool :=
  (construct (fun _ => 0x00) 512 8 0 0).bind fun p0 =>
    match release_frames [(get_frames p0 3).pool] 513 with
    | (_, [p2]) => some (get_frames (get_frames p2 1).pool 4).pool
    | _ => none

end ContFramePool

namespace ContFramePool

/-! ## `needed_info_frames` and the count of FREE frames -/

/-- The static `ContFramePool::needed_info_frames(unsigned long _n_frames)`.
With `#define KB * (0x1 << 10)` the text `8*4 KB` is `8*4 * (0x1 << 10)`;
`_n_frames*2` is a 32-bit product. -/
def needed_info_frames (n_frames : Nat) : Nat :=
  ((n_frames * 2) % WORD) / (8 * 4 * (0x1 <<< 10)) +
    (if ((n_frames * 2) % WORD) % (8 * 4 * (0x1 <<< 10)) > 0 then 1 else 0)

/-- Number of frames of the pool whose two bits are FREE. -/
def free_count (p : Pool) : Nat :=
  ((List.range p.nframes).filter (fun t => decide (frame_state p.bitmap t = FREE))).length

/-- Whether a call of `release_frames` came back to its caller: every branch
of the function but the dereference of a NULL list head is a `return`. -/
def Released.returns : Released → Bool
  | .released => true
  | .notHead => true
  | .notFound => true
  | .nullHead => false

/-- The spec's scenario carried out from the constructor: the pool at base
100 with 32 frames and an external info frame is constructed, `get_frames(5)`
is called and then `release_frames(100)`. The value is the list of pools
after the release. -/
def round_trip_pools : List Pool :=
  match construct (fun _ => 0x00) 100 32 99 1 with
  | some p0 => (release_frames (register [] (get_frames p0 5).pool) 100).2
  | none => []

end ContFramePool

/-! # Page table (`MP3/page_table.C`)

The page directory and the page tables are arrays of 32-bit entries in
physical memory. `memory` maps the byte address of an aligned 32-bit word to
the word; entry `i` of the array at address `p` is the word at `p + 4*i`,
a 32-bit sum. The bitmaps of the two frame pools are held in the pools and
not in `memory`.
-/

namespace PageTable

open ContFramePool

/-- Modelled from the spec: the header `page_table.H`, which declares the
constant `PAGE_SIZE`, is not among the sources; the spec fixes 4096-byte
pages (1024 four-byte entries fill one frame). -/
def PAGE_SIZE : Nat := 4096

/-- The static members of `PageTable` that the constructor and the fault
handler use, and the physical memory. -/
structure Paging where
  kernel_mem_pool : Pool
  process_mem_pool : Pool
  shared_size : Nat
  memory : Nat → Nat

/-- Result of the constructor or of the fault handler: the call returns, or
an `assert` of `get_frames` fails. -/
inductive Result (α : Type) where
  | returned (v : α) (s : Paging)
  | aborted (s : Paging)

/-- The state a call leaves behind. -/
def Result.state {α : Type} : Result α → Paging
  | .returned _ s => s
  | .aborted s => s

/-- Whether the call ended in a failed assertion. -/
def Result.isAborted {α : Type} : Result α → Bool
  | .returned _ _ => false
  | .aborted _ => true

/-- Byte address of `p[i]` for `unsigned long * p`. -/
def entry_addr (p i : Nat) : Nat := (p + 4 * i) % WORD

/-- `PageTable::init_paging`: records the two pools and the shared size. -/
def init_paging (memory : Nat → Nat) (kernel_mem_pool process_mem_pool : Pool)
    (shared_size : Nat) : Paging :=
  { kernel_mem_pool := kernel_mem_pool
    process_mem_pool := process_mem_pool
    shared_size := shared_size
    memory := memory }

/-- The loop `for (int i = 0; i < shared_frames; i++) { pg_tab[i] = mem_start | 3;
mem_start += PAGE_SIZE; }` of the constructor, with `left` iterations to go. -/
def map_shared (pg_tab : Nat) : Nat → Nat → Nat → (Nat → Nat) → (Nat → Nat)
  | 0, _, _, memory => memory
  | left + 1, i, mem_start, memory =>
    map_shared pg_tab left (i + 1) ((mem_start + PAGE_SIZE) % WORD)
      (Function.update memory (entry_addr pg_tab i) (mem_start ||| 3))

/-- The loop `for (int i = 1; i < shared_frames; i++) page_directory[i] = mask | 2`
of the constructor, `mask` being 0, with `left` iterations to go. -/
def mark_not_present (page_directory : Nat) : Nat → Nat → (Nat → Nat) → (Nat → Nat)
  | 0, _, memory => memory
  | left + 1, i, memory =>
    mark_not_present page_directory left (i + 1)
      (Function.update memory (entry_addr page_directory i) (0 ||| 2))

/-- The constructor `PageTable::PageTable()`; the value returned is the
member `page_directory`, an address. -/
def construct (s : Paging) : Result Nat :=
  match get_frames s.kernel_mem_pool 1 with
  | .aborted k => .aborted { s with kernel_mem_pool := k }
  | .returned f1 k1 =>
    let page_directory := (f1 * PAGE_SIZE) % WORD
    match get_frames k1 1 with
    | .aborted k => .aborted { s with kernel_mem_pool := k }
    | .returned f2 k2 =>
      let pg_tab := (f2 * PAGE_SIZE) % WORD
      let shared_frames := s.shared_size / PAGE_SIZE
      let memory1 := map_shared pg_tab shared_frames 0 0 s.memory
      let memory2 := Function.update memory1 (entry_addr page_directory 0) (pg_tab ||| 3)
      let memory3 := mark_not_present page_directory (shared_frames - 1) 1 memory2
      .returned page_directory { s with kernel_mem_pool := k2, memory := memory3 }

/-- The loop `for (int i = 0; i<PAGE_SIZE; i++) pg_tab[i] = 0` of the fault
handler, with `left` iterations to go. -/
def zero_table (pg_tab : Nat) : Nat → Nat → (Nat → Nat) → (Nat → Nat)
  | 0, _, memory => memory
  | left + 1, i, memory =>
    zero_table pg_tab left (i + 1) (Function.update memory (entry_addr pg_tab i) 0)

/-- `PageTable::handle_fault(REGS * _r)`: `err_code` is `_r->err_code`, `cr3`
and `fault_addr` are what `read_cr3()` and `read_cr2()` give. -/
def handle_fault (s : Paging) (err_code cr3 fault_addr : Nat) : Result Unit :=
  let PG_DIR_MASK := 0xFFFFF000
  let pg_dir := cr3
  let pg_dir_addr := fault_addr >>> 22
  let pg_tab_addr := (fault_addr >>> 12) &&& 0x3FF
  if err_code &&& 1 = 0 then
    if s.memory (entry_addr pg_dir pg_dir_addr) &&& 1 = 0 then
      match get_frames s.kernel_mem_pool 1 with
      | .aborted k => .aborted { s with kernel_mem_pool := k }
      | .returned f k =>
        let memory1 := Function.update s.memory (entry_addr pg_dir pg_dir_addr)
          (((f * PAGE_SIZE) % WORD) ||| 3)
        let pg_tab := memory1 (entry_addr pg_dir pg_dir_addr) &&& PG_DIR_MASK
        let memory2 := zero_table pg_tab PAGE_SIZE 0 memory1
        match get_frames s.process_mem_pool 1 with
        | .aborted q =>
          .aborted { s with kernel_mem_pool := k, process_mem_pool := q, memory := memory2 }
        | .returned g q =>
          .returned ()
            { s with
              kernel_mem_pool := k
              process_mem_pool := q
              memory := Function.update memory2 (entry_addr pg_tab pg_tab_addr)
                (((g * PAGE_SIZE) % WORD) ||| 3) }
    else
      let pg_tab := s.memory (entry_addr pg_dir pg_dir_addr) &&& PG_DIR_MASK
      match get_frames s.process_mem_pool 1 with
      | .aborted q => .aborted { s with process_mem_pool := q }
      | .returned g q =>
        .returned ()
          { s with
            process_mem_pool := q
            memory := Function.update s.memory (entry_addr pg_tab pg_tab_addr)
              (((g * PAGE_SIZE) % WORD) ||| 3) }
  else .returned () s

/-! ## States used as examples -/

/-- A self-managed kernel pool of 32 frames at base 512: frame 512 holds the
bitmap and is INACCESSIBLE, the others are FREE. -/
def kernel_pool : Pool :=
  { base_frame_no := 512
    nframes := 32
    nFreeFrames := 31
    info_frame_no := 0
    n_info_frames := 0
    bitmap := fun i => if i = 0 then 0x40 else 0x00 }

/-- A process pool of 32 frames at base 1024, all FREE, the bitmap kept in an
info frame outside the pool. -/
def process_pool : Pool :=
  { base_frame_no := 1024
    nframes := 32
    nFreeFrames := 32
    info_frame_no := 600
    n_info_frames := 1
    bitmap := fun _ => 0x00 }

/-- Paging set up over these two pools with a shared region of two pages, the
memory holding `0xFFFFFFFF` in every word. -/
def paging_two_pages : Paging :=
  init_paging (fun _ => 0xFFFFFFFF) kernel_pool process_pool (2 * PAGE_SIZE)

/-- The state after a page table has been constructed over `paging_two_pages`:
the directory is in frame 513, the first page table in frame 514. -/
def paging_after_construct : Paging := (construct paging_two_pages).state

/-- Number of entries among the first 1024 of the array at address `p` whose
present bit (bit 0) is set. -/
def present_entries (memory : Nat → Nat) (p : Nat) : Nat :=
  ((List.range 1024).filter (fun i => decide (memory (entry_addr p i) &&& 1 = 1))).length

/-- A run of calls: the kernel takes frame 513 with `get_frames(1)`, a page
table is constructed (directory in frame 514, first table in frame 515, shared
region of 1024 pages), frame 513 is released again, and a not-present fault
(error code 0) arrives at address `0x00400000` (directory entry 1), the
directory register holding the directory's address. The value is the state
before the fault together with the result of the fault handler. -/
def fault_below_directory : Option (Paging × Result Unit) :=
  let s0 := init_paging (fun _ => 0x00) kernel_pool process_pool (1024 * PAGE_SIZE)
  match construct { s0 with kernel_mem_pool := (get_frames s0.kernel_mem_pool 1).pool } with
  | .returned page_directory s1 =>
    match release_frames [s1.kernel_mem_pool, s1.process_mem_pool] 513 with
    | (_, [k, q]) =>
      let s2 : Paging := { s1 with kernel_mem_pool := k, process_mem_pool := q }
      some (s2, handle_fault s2 0 page_directory 0x00400000)
    | _ => none
  | .aborted _ => none

end PageTable

/-! # Properties -/

namespace ContFramePool

/-! ## Bytes and slots -/

set_option maxRecDepth 1000000 in
theorem slot_test_free :
    ∀ b < 256, ∀ j < 4, (b &&& (0xC0 >>> (2 * j)) = 0 ↔ slot b j = 0) := by decide!

set_option maxRecDepth 1000000 in
theorem slot_or_head :
    ∀ b < 256, ∀ j < 4, ∀ j' < 4, slot b j = 0 →
      slot (b ||| (0x80 >>> (2 * j))) j' = if j' = j then 2 else slot b j' := by decide!

set_option maxRecDepth 1000000 in
theorem slot_or_cont :
    ∀ b < 256, ∀ j < 4, ∀ j' < 4,
      slot (b ||| (0xC0 >>> (2 * j))) j' = if j' = j then 3 else slot b j' := by decide!

set_option maxRecDepth 1000000 in
theorem slot_inaccessible :
    ∀ b < 256, ∀ j < 4, ∀ j' < 4, slot b j = 0 →
      slot ((b ||| (0xC0 >>> (2 * j))) ^^^ (0x80 >>> (2 * j))) j'
        = if j' = j then 1 else slot b j' := by decide!

set_option maxRecDepth 1000000 in
theorem slot_test_head :
    ∀ b < 256, ∀ j < 4,
      ((b ^^^ (0x40 >>> (j * 2))) &&& (0xC0 >>> (j * 2)) = 0xC0 >>> (j * 2) ↔ slot b j = 2) := by
  decide!

set_option maxRecDepth 1000000 in
theorem slot_clear :
    ∀ b < 256, ∀ j < 4, ∀ j' < 4,
      slot (b &&& (0xFF ^^^ (0xC0 >>> (j * 2)))) j' = if j' = j then 0 else slot b j' := by
  decide!

set_option maxRecDepth 1000000 in
theorem byte_or_lt : ∀ b < 256, ∀ j < 5, (b ||| (0xC0 >>> (2 * j))) < 256 ∧
    (b ||| (0x80 >>> (2 * j))) < 256 ∧
    ((b ||| (0xC0 >>> (2 * j))) ^^^ (0x80 >>> (2 * j))) < 256 ∧
    (b &&& (0xFF ^^^ (0xC0 >>> (j * 2)))) < 256 := by decide!

theorem mask_shift (m j : Nat) : (m >>> (2 * j)) >>> 2 = m >>> (2 * (j + 1)) := by
  rw [← Nat.shiftRight_add]; rfl

theorem slot_lt (b j : Nat) : slot b j < 4 := Nat.mod_lt _ (by decide)

/-- Writing byte `i` with a value that differs from the old one in slot `j`
only, where it holds `c`, changes the state of frame `4*i + j` to `c` and of no
other frame. -/
theorem frame_state_update (bm : Nat → Nat) (i j c v : Nat) (hj : j < 4)
    (hv : ∀ j' < 4, slot v j' = if j' = j then c else slot (bm i) j') (t : Nat) :
    frame_state (Function.update bm i v) t = if t = 4 * i + j then c else frame_state bm t := by
  unfold frame_state
  by_cases h : t / 4 = i
  · subst h
    rw [Function.update_same, hv _ (Nat.mod_lt _ (by decide))]
    by_cases h2 : t % 4 = j
    · rw [if_pos h2, if_pos (by omega)]
    · rw [if_neg h2, if_neg (by omega)]
  · rw [Function.update_noteq h, if_neg (by omega)]

theorem update_byte_lt (bm : Nat → Nat) (i v : Nat) (hb : ∀ x, bm x < 256) (hv : v < 256) :
    ∀ x, Function.update bm i v x < 256 := by
  intro x
  by_cases h : x = i
  · subst h; rw [Function.update_same]; exact hv
  · rw [Function.update_noteq h]; exact hb x

/-! ## The marking loops of `get_frames` -/

theorem markedFrom_zero (bm : Nat → Nat) (a : Nat) (hb : ∀ x, bm x < 256) :
    MarkedFrom bm bm a 0 :=
  ⟨hb, fun t => by rw [if_neg (by omega)]⟩

theorem mark_bits_spec (i : Nat) : ∀ (left j : Nat) (bm : Nat → Nat) (tbm : Nat),
    j + left = 4 → (∀ x, bm x < 256) →
    (mark_bits i left bm tbm (0xC0 >>> (2 * j))).2 = tbm - min tbm left ∧
    MarkedFrom bm (mark_bits i left bm tbm (0xC0 >>> (2 * j))).1 (4 * i + j) (min tbm left) := by
  intro left
  induction left with
  | zero =>
    intro j bm tbm _ hb
    simp only [mark_bits, Nat.min_zero, Nat.sub_zero, true_and]
    exact markedFrom_zero bm _ hb
  | succ left ih =>
    intro j bm tbm hj hb
    unfold mark_bits
    by_cases h0 : tbm = 0
    · subst h0
      simp only [gt_iff_lt, Nat.lt_irrefl, false_and, if_false, if_true, Nat.zero_min,
        Nat.sub_zero, true_and]
      exact markedFrom_zero bm _ hb
    · rw [if_neg h0, mask_shift]
      have hjlt : j < 4 := by omega
      have hb1 := update_byte_lt bm i (bm i ||| (0xC0 >>> (2 * j))) hb
        (byte_or_lt _ (hb i) j (by omega)).1
      have hst := frame_state_update bm i j 3 (bm i ||| (0xC0 >>> (2 * j))) hjlt
        (fun j' hj' => slot_or_cont _ (hb i) j hjlt j' hj')
      obtain ⟨h1, h2, h3⟩ := ih (j + 1) _ (tbm - 1) (by omega) hb1
      refine ⟨by rw [h1]; omega, h2, ?_⟩
      intro t
      rw [h3 t, hst t]
      have hmin : min tbm (left + 1) = min (tbm - 1) left + 1 := by omega
      rw [hmin]
      by_cases c1 : t = 4 * i + j
      · subst c1
        rw [if_neg (by omega), if_pos rfl, if_pos (by omega)]
      · rw [if_neg c1]
        by_cases c2 : 4 * i + (j + 1) ≤ t ∧ t < 4 * i + (j + 1) + min (tbm - 1) left
        · rw [if_pos c2, if_pos (by omega)]
        · rw [if_neg c2, if_neg (by omega)]

theorem mark_same_byte_spec (i : Nat) : ∀ (left j : Nat) (bm : Nat → Nat) (tbm : Nat),
    j + left = 4 → (∀ x, bm x < 256) →
    (mark_same_byte i left bm tbm j (0xC0 >>> (2 * j))).2 = tbm - min tbm left ∧
    MarkedFrom bm (mark_same_byte i left bm tbm j (0xC0 >>> (2 * j))).1 (4 * i + j)
      (min tbm left) := by
  intro left
  induction left with
  | zero =>
    intro j bm tbm _ hb
    simp only [mark_same_byte, Nat.min_zero, Nat.sub_zero, true_and]
    exact markedFrom_zero bm _ hb
  | succ left ih =>
    intro j bm tbm hj hb
    unfold mark_same_byte
    by_cases h0 : tbm = 0
    · subst h0
      simp only [gt_iff_lt, Nat.lt_irrefl, false_and, if_false, if_true, Nat.zero_min,
        Nat.sub_zero, true_and]
      exact markedFrom_zero bm _ hb
    · have hjlt : j < 4 := by omega
      rw [if_pos ⟨Nat.pos_of_ne_zero h0, hjlt⟩, mask_shift]
      have hb1 := update_byte_lt bm i (bm i ||| (0xC0 >>> (2 * j))) hb
        (byte_or_lt _ (hb i) j (by omega)).1
      have hst := frame_state_update bm i j 3 (bm i ||| (0xC0 >>> (2 * j))) hjlt
        (fun j' hj' => slot_or_cont _ (hb i) j hjlt j' hj')
      obtain ⟨h1, h2, h3⟩ := ih (j + 1) _ (tbm - 1) (by omega) hb1
      refine ⟨by rw [h1]; omega, h2, ?_⟩
      intro t
      rw [h3 t, hst t]
      have hmin : min tbm (left + 1) = min (tbm - 1) left + 1 := by omega
      rw [hmin]
      by_cases c1 : t = 4 * i + j
      · subst c1
        rw [if_neg (by omega), if_pos rfl, if_pos (by omega)]
      · rw [if_neg c1]
        by_cases c2 : 4 * i + (j + 1) ≤ t ∧ t < 4 * i + (j + 1) + min (tbm - 1) left
        · rw [if_pos c2, if_pos (by omega)]
        · rw [if_neg c2, if_neg (by omega)]

theorem mark_bytes_spec : ∀ (left i : Nat) (bm : Nat → Nat) (tbm : Nat),
    (∀ x, bm x < 256) →
    (mark_bytes left i bm tbm).2 = tbm - min tbm (4 * left) ∧
    MarkedFrom bm (mark_bytes left i bm tbm).1 (4 * i) (min tbm (4 * left)) := by
  intro left
  induction left with
  | zero =>
    intro i bm tbm hb
    simp only [mark_bytes, Nat.mul_zero, Nat.min_zero, Nat.sub_zero, true_and]
    exact markedFrom_zero bm _ hb
  | succ left ih =>
    intro i bm tbm hb
    unfold mark_bytes
    obtain ⟨h1, h2, h3⟩ := mark_bits_spec i 4 0 bm tbm rfl hb
    simp only [Nat.mul_zero, Nat.shiftRight_zero, Nat.add_zero] at h1 h2 h3
    simp only
    by_cases hz : (mark_bits i 4 bm tbm 0xC0).2 = 0
    · rw [if_pos hz]
      have hle : tbm ≤ 4 := by omega
      have e1 : min tbm (4 * (left + 1)) = min tbm 4 := by omega
      rw [e1]
      exact ⟨h1, h2, h3⟩
    · rw [if_neg hz]
      have hgt : 4 < tbm := by omega
      obtain ⟨g1, g2, g3⟩ := ih (i + 1) _ (mark_bits i 4 bm tbm 0xC0).2 h2
      refine ⟨by rw [g1, h1]; omega, g2, ?_⟩
      intro t
      rw [g3 t, h3 t, h1]
      have e4 : min tbm 4 = 4 := by omega
      rw [e4]
      by_cases c1 : 4 * (i + 1) ≤ t ∧ t < 4 * (i + 1) + min (tbm - 4) (4 * left)
      · rw [if_pos c1, if_pos (by omega)]
      · rw [if_neg c1]
        by_cases c2 : 4 * i ≤ t ∧ t < 4 * i + 4
        · rw [if_pos c2, if_pos (by omega)]
        · rw [if_neg c2, if_neg (by omega)]

end ContFramePool

namespace ContFramePool

/-! ## The search loop of `get_frames` -/

theorem dec_word (n : Nat) (h1 : 1 ≤ n) (h2 : n ≤ WORD) : (n + (WORD - 1)) % WORD = n - 1 := by
  unfold WORD at *
  omega

theorem test_free_iff (bm : Nat → Nat) (i j : Nat) (hj : j < 4) (hb : bm i < 256) :
    bm i &&& (0xC0 >>> (2 * j)) = 0 ↔ frame_state bm (4 * i + j) = FREE := by
  have e1 : (4 * i + j) / 4 = i := by omega
  have e2 : (4 * i + j) % 4 = j := by omega
  unfold frame_state FREE
  rw [e1, e2]
  exact slot_test_free _ hb j hj

theorem ScanInv.mono {bm : Nat → Nat} {base n k k1 : Nat} {s : Scan}
    (h : ScanInv bm base n k s) (hn : 1 ≤ n) (hz : s.frames_to_be_found = 0) (hk : k ≤ k1) :
    ScanInv bm base n k1 s := by
  rcases h with ⟨_, h2, _⟩ | ⟨h, a1, a2, a3, a4, a5, a6, a7, a8, a9⟩
  · omega
  · exact Or.inr ⟨h, a1, a2, a3, a4, a5, a6, by omega, by omega, a9⟩

theorem scan_bits_inv (bm : Nat → Nat) (base n i : Nat) (hn : 1 ≤ n) (hnw : n ≤ WORD)
    (hb : bm i < 256) (hov : base + 4 * i + 4 ≤ WORD) :
    ∀ (left j : Nat) (s : Scan), j + left = 4 → ScanInv bm base n (4 * i + j) s →
      ScanInv bm base n (4 * i + 4) (scan_bits bm base n i left j (0xC0 >>> (2 * j)) s) := by
  intro left
  induction left with
  | zero =>
    intro j s hj hs
    have : j = 4 := by omega
    subst this
    exact hs
  | succ left ih =>
    intro j s hj hs
    have hjlt : j < 4 := by omega
    have htest := test_free_iff bm i j hjlt hb
    unfold scan_bits
    rw [mask_shift]
    rcases hs with ⟨c1, c2, c3, c4, c5, c6⟩ | ⟨h, a1, a2, a3, a4, a5, a6, a7, a8, a9⟩
    · rw [if_pos c1]
      by_cases hfree : bm i &&& (0xC0 >>> (2 * j)) = 0
      · rw [if_pos hfree]
        apply ih (j + 1) _ (by omega)
        refine Or.inr ⟨4 * i + j, rfl, ?_, ?_, ?_, ?_, ?_, ?_, ?_, ?_⟩
        · show (s.head_frame_no + (4 * i + j)) % WORD = base + (4 * i + j)
          rw [c3]
          exact Nat.mod_eq_of_lt (by omega)
        · show i = (4 * i + j) / 4
          omega
        · show j = (4 * i + j) % 4
          omega
        · show (s.frames_to_be_found + (WORD - 1)) % WORD < n
          rw [c2, dec_word n hn hnw]; omega
        · show run_free bm (4 * i + j) (n - (s.frames_to_be_found + (WORD - 1)) % WORD)
          rw [c2, dec_word n hn hnw]
          intro t ht1 ht2
          have : t = 4 * i + j := by omega
          subst this
          exact htest.mp hfree
        · show 4 * i + j + (n - (s.frames_to_be_found + (WORD - 1)) % WORD) ≤ 4 * i + (j + 1)
          rw [c2, dec_word n hn hnw]; omega
        · show 0 < (s.frames_to_be_found + (WORD - 1)) % WORD →
            4 * i + j + (n - (s.frames_to_be_found + (WORD - 1)) % WORD) = 4 * i + (j + 1)
          rw [c2, dec_word n hn hnw]; omega
        · exact c6
      · rw [if_neg hfree]
        apply ih (j + 1) _ (by omega)
        refine Or.inl ⟨c1, c2, c3, c4, c5, ?_⟩
        intro a ha hrun
        by_cases hak : a < 4 * i + j
        · exact c6 a hak hrun
        · have : a = 4 * i + j := by omega
          subst this
          exact hfree (htest.mpr (hrun _ (Nat.le_refl _) (by omega)))
    · rw [if_neg (by omega)]
      by_cases hpos : s.frames_to_be_found > 0
      · rw [if_pos hpos]
        have hk := a8 hpos
        by_cases hfree : bm i &&& (0xC0 >>> (2 * j)) = 0
        · rw [if_pos hfree]
          apply ih (j + 1) _ (by omega)
          refine Or.inr ⟨h, a1, a2, a3, a4, ?_, ?_, ?_, ?_, a9⟩
          · show s.frames_to_be_found - 1 < n
            omega
          · show run_free bm h (n - (s.frames_to_be_found - 1))
            intro t ht1 ht2
            by_cases htk : t < h + (n - s.frames_to_be_found)
            · exact a6 t ht1 htk
            · have : t = 4 * i + j := by omega
              subst this
              exact htest.mp hfree
          · show h + (n - (s.frames_to_be_found - 1)) ≤ 4 * i + (j + 1)
            omega
          · show 0 < s.frames_to_be_found - 1 →
              h + (n - (s.frames_to_be_found - 1)) = 4 * i + (j + 1)
            omega
        · rw [if_neg hfree]
          apply ih (j + 1) _ (by omega)
          refine Or.inl ⟨rfl, rfl, rfl, rfl, rfl, ?_⟩
          intro a ha hrun
          by_cases hah : a < h
          · exact a9 a hah hrun
          · exact hfree (htest.mpr (hrun _ (by omega) (by omega)))
      · rw [if_neg hpos]
        have hz : s.frames_to_be_found = 0 := by omega
        exact ScanInv.mono (Or.inr ⟨h, a1, a2, a3, a4, a5, a6, a7, a8, a9⟩) hn hz (by omega)

theorem scan_bytes_inv (bm : Nat → Nat) (base n : Nat) (hn : 1 ≤ n) (hnw : n ≤ WORD)
    (hb : ∀ x, bm x < 256) :
    ∀ (left i : Nat) (s : Scan), base + 4 * (i + left) ≤ WORD → ScanInv bm base n (4 * i) s →
      ScanInv bm base n (4 * (i + left)) (scan_bytes bm base n left i s) := by
  intro left
  induction left with
  | zero => intro i s _ hs; exact hs
  | succ left ih =>
    intro i s hov hs
    unfold scan_bytes
    have h1 := scan_bits_inv bm base n i hn hnw (hb i) (by omega) 4 0 s rfl hs
    simp only [Nat.mul_zero, Nat.shiftRight_zero, Nat.add_zero] at h1
    simp only
    by_cases hz : (scan_bits bm base n i 4 0 0xC0 s).frames_to_be_found = 0
    · rw [if_pos hz]
      exact ScanInv.mono h1 hn hz (by omega)
    · rw [if_neg hz]
      have h2 := ih (i + 1) _ (by omega) (by simpa [Nat.mul_add] using h1)
      have e : i + 1 + left = i + (left + 1) := by omega
      rw [e] at h2
      exact h2

/-- The invariant holds at the end of the search, over the `4 * (nframes/4)`
frames that the loop looks at. -/
theorem search_inv (p : Pool) (n : Nat) (hn : 1 ≤ n) (hnw : n ≤ WORD)
    (hb : ∀ x, p.bitmap x < 256) (hov : p.base_frame_no + p.nframes ≤ WORD) :
    ScanInv p.bitmap p.base_frame_no n (4 * (p.nframes / 4)) (search p n) := by
  have h := scan_bytes_inv p.bitmap p.base_frame_no n hn hnw hb (p.nframes / 4) 0
    { head_frame_no := p.base_frame_no, byte_index := 0, bit_index := 0, tempHeadFound := 0,
      frames_to_be_found := n } (by omega)
    (Or.inl ⟨rfl, rfl, rfl, rfl, rfl, fun a ha => absurd ha (by omega)⟩)
  simpa [search] using h

/-- A search that ends with `frames_to_be_found = 0` has found the lowest run. -/
theorem search_found (p : Pool) (n : Nat) (hn : 1 ≤ n) (hnw : n ≤ WORD)
    (hb : ∀ x, p.bitmap x < 256) (hov : p.base_frame_no + p.nframes ≤ WORD)
    (hz : (search p n).frames_to_be_found = 0) :
    ∃ h, (search p n).head_frame_no = p.base_frame_no + h ∧ (search p n).byte_index = h / 4 ∧
      (search p n).bit_index = h % 4 ∧ h + n ≤ 4 * (p.nframes / 4) ∧
      run_free p.bitmap h n ∧ ∀ a < h, ¬ run_free p.bitmap a n := by
  rcases search_inv p n hn hnw hb hov with ⟨_, c2, _⟩ | ⟨h, a1, a2, a3, a4, a5, a6, a7, a8, a9⟩
  · omega
  · rw [hz] at a6 a7
    exact ⟨h, a2, a3, a4, by omega, a6, a9⟩

/-- A search that ends with `frames_to_be_found ≠ 0` has seen no run of `n`
FREE frames among the frames it looks at. -/
theorem search_not_found (p : Pool) (n : Nat) (hn : 1 ≤ n) (hnw : n ≤ WORD)
    (hb : ∀ x, p.bitmap x < 256) (hov : p.base_frame_no + p.nframes ≤ WORD)
    (hz : (search p n).frames_to_be_found ≠ 0) :
    ∀ a, a + n ≤ 4 * (p.nframes / 4) → ¬ run_free p.bitmap a n := by
  intro a ha hrun
  rcases search_inv p n hn hnw hb hov with ⟨_, _, _, _, _, c6⟩ | ⟨h, a1, a2, a3, a4, a5, a6, a7, a8, a9⟩
  · exact c6 a (by omega) hrun
  · have hk := a8 (by omega)
    by_cases hah : a < h
    · exact a9 a hah hrun
    · omega

end ContFramePool

namespace ContFramePool

/-! ## `get_frames` as a whole -/

/-- What a `get_frames(n)` whose search succeeds does: it returns the head of
the lowest run of `n` FREE frames, marks that run and charges `n` frames. -/
theorem get_frames_found (p : Pool) (n : Nat) (hn : 1 ≤ n) (hnw : n ≤ WORD)
    (hb : ∀ x, p.bitmap x < 256) (hov : p.base_frame_no + p.nframes ≤ WORD)
    (hfree : n < p.nFreeFrames) (hz : (search p n).frames_to_be_found = 0) :
    ∃ h q, get_frames p n = .returned (p.base_frame_no + h) q ∧
      h + n ≤ 4 * (p.nframes / 4) ∧ run_free p.bitmap h n ∧
      (∀ a < h, ¬ run_free p.bitmap a n) ∧
      q.base_frame_no = p.base_frame_no ∧ q.nframes = p.nframes ∧
      q.nFreeFrames = p.nFreeFrames - n ∧ (∀ x, q.bitmap x < 256) ∧
      ∀ t, frame_state q.bitmap t =
        if t = h then HEAD_OF_SEQUENCE
        else if h < t ∧ t < h + n then ALLOCATED_CONTINUATION
        else frame_state p.bitmap t := by
  obtain ⟨h, e1, e2, e3, hK, hrun, hleast⟩ := search_found p n hn hnw hb hov hz
  have hj : h % 4 < 4 := Nat.mod_lt _ (by decide)
  have hh : 4 * (h / 4) + h % 4 = h := by omega
  have hfree_h : slot (p.bitmap (h / 4)) (h % 4) = 0 := hrun h (Nat.le_refl _) (by omega)
  -- the head
  have hb1 := update_byte_lt p.bitmap (h / 4) (p.bitmap (h / 4) ||| (0x80 >>> (2 * (h % 4)))) hb
    (byte_or_lt _ (hb _) (h % 4) (by omega)).2.1
  have hst1 := frame_state_update p.bitmap (h / 4) (h % 4) 2
    (p.bitmap (h / 4) ||| (0x80 >>> (2 * (h % 4)))) hj
    (fun j' hj' => slot_or_head _ (hb _) (h % 4) hj j' hj' hfree_h)
  rw [hh] at hst1
  -- the rest of the head's byte
  obtain ⟨m1, m2, m3⟩ := mark_same_byte_spec (h / 4) (4 - (h % 4 + 1)) (h % 4 + 1) _
    ((n + (WORD - 1)) % WORD) (by omega) hb1
  -- the later bytes
  obtain ⟨k1, k2, k3⟩ := mark_bytes_spec (p.nframes / 4 - (h / 4 + 1)) (h / 4 + 1) _
    (mark_same_byte (h / 4) (4 - (h % 4 + 1))
      (Function.update p.bitmap (h / 4) (p.bitmap (h / 4) ||| (0x80 >>> (2 * (h % 4)))))
      ((n + (WORD - 1)) % WORD) (h % 4 + 1) (0xC0 >>> (2 * (h % 4 + 1)))).2 m2
  rw [dec_word n hn hnw] at m1 m3 k1 k2 k3
  have hgf : get_frames p n = .returned (search p n).head_frame_no
      { p with
        bitmap := (mark_bytes (p.nframes / 4 - ((search p n).byte_index + 1))
          ((search p n).byte_index + 1)
          (mark_same_byte (search p n).byte_index (4 - ((search p n).bit_index + 1))
            (Function.update p.bitmap (search p n).byte_index
              (p.bitmap (search p n).byte_index ||| (0x80 >>> (2 * (search p n).bit_index))))
            ((n + (WORD - 1)) % WORD) ((search p n).bit_index + 1)
            (0xC0 >>> (2 * ((search p n).bit_index + 1)))).1
          (mark_same_byte (search p n).byte_index (4 - ((search p n).bit_index + 1))
            (Function.update p.bitmap (search p n).byte_index
              (p.bitmap (search p n).byte_index ||| (0x80 >>> (2 * (search p n).bit_index))))
            ((n + (WORD - 1)) % WORD) ((search p n).bit_index + 1)
            (0xC0 >>> (2 * ((search p n).bit_index + 1)))).2).1
        nFreeFrames := p.nFreeFrames - n } := by
    unfold get_frames
    rw [if_neg (by omega), if_neg (by omega)]
  rw [e1, e2, e3, dec_word n hn hnw] at hgf
  refine ⟨h, _, hgf, hK, hrun, hleast, rfl, rfl, rfl, k2, ?_⟩
  · intro t
    rw [k3 t, m3 t, hst1 t, m1]
    unfold HEAD_OF_SEQUENCE ALLOCATED_CONTINUATION
    by_cases c0 : t = h
    · subst c0
      rw [if_neg (by omega), if_neg (by omega), if_pos rfl, if_pos rfl]
    · rw [if_neg c0, if_neg c0]
      by_cases c1 : h < t ∧ t < h + n
      · rw [if_pos c1]
        by_cases c2 : 4 * (h / 4 + 1) ≤ t ∧ t < 4 * (h / 4 + 1) +
            min (n - 1 - min (n - 1) (4 - (h % 4 + 1))) (4 * (p.nframes / 4 - (h / 4 + 1)))
        · rw [if_pos c2]
        · rw [if_neg c2, if_pos (by omega)]
      · rw [if_neg c1, if_neg (by omega), if_neg (by omega)]

end ContFramePool

namespace ContFramePool

theorem get_frames_not_aborted_iff (p : Pool) (n : Nat) :
    (get_frames p n).isAborted = true ↔ p.nFreeFrames ≤ n := by
  unfold get_frames
  by_cases h : p.nFreeFrames > n
  · rw [if_neg (not_not.mpr h)]
    by_cases h2 : (search p n).frames_to_be_found ≠ 0
    · rw [if_pos h2]; simp [Outcome.isAborted]; omega
    · rw [if_neg h2]; simp [Outcome.isAborted]; omega
  · rw [if_pos h]; simp [Outcome.isAborted]; omega

theorem get_frames_aborted_pool (p : Pool) (n : Nat) (h : p.nFreeFrames ≤ n) :
    get_frames p n = .aborted p := by
  unfold get_frames
  rw [if_pos (by omega)]

theorem pool_100_32_wf : pool_100_32.wf :=
  ⟨fun _ => by show (0 : Nat) < 256; decide, by decide, by decide, by decide⟩

theorem pool_100_32_free (t : Nat) : frame_state pool_100_32.bitmap t = FREE := by
  simp [frame_state, pool_100_32, slot, FREE]

theorem pool_fragmented_wf : pool_fragmented.wf :=
  ⟨fun x => by unfold pool_fragmented; dsimp only; split <;> decide, by decide, by decide,
    by decide⟩

/-- C1. When `get_frames(n)`, `n ≥ 1`, finds a run and returns its head `h`,
then `base_frame_no ≤ h` and `h + n ≤ base_frame_no + nframes`; afterwards
frame `h` is HEAD_OF_SEQUENCE, the frames `h+1 .. h+n-1` are
ALLOCATED_CONTINUATION, every other frame of the pool has the state it had,
and `nFreeFrames` has gone down by exactly `n`. -/
theorem get_frames_marks_run (p q : Pool) (n h : Nat) (hwf : p.wf) (hn : 1 ≤ n)
    (hfound : (search p n).frames_to_be_found = 0)
    (hret : get_frames p n = .returned h q) :
    p.base_frame_no ≤ h ∧ h + n ≤ p.base_frame_no + p.nframes ∧
    frame_state q.bitmap (h - p.base_frame_no) = HEAD_OF_SEQUENCE ∧
    (∀ f, h < f → f < h + n →
      frame_state q.bitmap (f - p.base_frame_no) = ALLOCATED_CONTINUATION) ∧
    (∀ f, p.base_frame_no ≤ f → f < p.base_frame_no + p.nframes → ¬ (h ≤ f ∧ f < h + n) →
      frame_state q.bitmap (f - p.base_frame_no) = frame_state p.bitmap (f - p.base_frame_no)) ∧
    q.nFreeFrames + n = p.nFreeFrames ∧ q.base_frame_no = p.base_frame_no ∧
    q.nframes = p.nframes := by
  obtain ⟨hb, h8, hfw, hov⟩ := hwf
  have hlt : n < p.nFreeFrames := by
    by_contra hc
    rw [get_frames_aborted_pool p n (by omega)] at hret
    cases hret
  obtain ⟨h0, q0, g1, g2, g3, g4, g5, g6, g7, g8, g9⟩ :=
    get_frames_found p n hn (by omega) hb (by omega) hlt hfound
  rw [g1] at hret
  injection hret with e1 e2
  subst e1 e2
  refine ⟨by omega, by omega, ?_, ?_, ?_, by omega, g5, g6⟩
  · rw [Nat.add_sub_cancel_left, g9, if_pos rfl]
  · intro f hf1 hf2
    rw [g9, if_neg (by omega), if_pos (by omega)]
  · intro f hf1 hf2 hf3
    rw [g9, if_neg (by omega), if_neg (by omega)]

/-- Instance of C1: `get_frames(5)` on the all-FREE pool at base 100. -/
theorem get_frames_marks_run_witness :
    (search pool_100_32 5).frames_to_be_found = 0 ∧
    frame_state (get_frames pool_100_32 5).pool.bitmap (100 - 100) = HEAD_OF_SEQUENCE ∧
    (get_frames pool_100_32 5).pool.nFreeFrames + 5 = 32 :=
  have h := get_frames_marks_run pool_100_32 (get_frames pool_100_32 5).pool 5 100
    pool_100_32_wf (by decide) (by decide) rfl
  ⟨by decide, h.2.2.1, h.2.2.2.2.2.1⟩

/-- C2. First fit: when `n ≥ 1` passes the free-count assertion and the pool
holds a run of `n` consecutive FREE frames, `get_frames(n)` returns the lowest
frame number `h` such that the frames `h .. h+n-1` were all FREE before the
call. -/
theorem get_frames_first_fit (p : Pool) (n : Nat) (hwf : p.wf) (hn : 1 ≤ n)
    (hpre : n < p.nFreeFrames)
    (hex : ∃ a, a + n ≤ p.nframes ∧ run_free p.bitmap a n) :
    ∃ h q, get_frames p n = .returned (p.base_frame_no + h) q ∧ h + n ≤ p.nframes ∧
      run_free p.bitmap h n ∧ ∀ a < h, ¬ run_free p.bitmap a n := by
  obtain ⟨hb, h8, hfw, hov⟩ := hwf
  have hK : 4 * (p.nframes / 4) = p.nframes := by omega
  have hz : (search p n).frames_to_be_found = 0 := by
    by_contra hc
    obtain ⟨a, ha, hrun⟩ := hex
    exact search_not_found p n hn (by omega) hb (by omega) hc a (by omega) hrun
  obtain ⟨h0, q0, g1, g2, g3, g4, _⟩ :=
    get_frames_found p n hn (by omega) hb (by omega) hpre hz
  exact ⟨h0, q0, g1, by omega, g3, g4⟩

/-- Instance of C2: in the fragmented pool the lowest FREE frame is 101. -/
theorem get_frames_first_fit_witness :
    ∃ h q, get_frames pool_fragmented 1 = .returned (100 + h) q ∧ h + 1 ≤ 8 ∧
      run_free pool_fragmented.bitmap h 1 ∧ ∀ a < h, ¬ run_free pool_fragmented.bitmap a 1 :=
  get_frames_first_fit pool_fragmented 1 pool_fragmented_wf (by decide) (by decide)
    ⟨1, by decide, fun t h1 h2 => by
      have : t = 1 := by omega
      subst this
      decide⟩

/-- C3, as stated, fails: on the pool of 32 frames that are all FREE, with
`nFreeFrames = 32`, the request `get_frames(32)` does not exceed `nFreeFrames`,
yet the call ends in the failed assertion. -/
theorem get_frames_whole_pool_aborts :
    pool_100_32.nFreeFrames = 32 ∧ pool_100_32.nframes = 32 ∧
    (∀ t, frame_state pool_100_32.bitmap t = FREE) ∧
    ¬ (32 > pool_100_32.nFreeFrames) ∧ (get_frames pool_100_32 32).isAborted = true :=
  ⟨rfl, rfl, pool_100_32_free, by decide, by decide⟩

/-- C3, amended. `get_frames(n)` fails on its assertion exactly when
`n ≥ nFreeFrames`, and then the pool is as before; on a pool of `N` frames that
are all FREE, with `nFreeFrames = N`, `get_frames(k)` for `1 ≤ k < N` does not
fail and returns the head `base_frame_no`, whose run lies inside the pool. -/
theorem get_frames_exhaustion (p : Pool) (n : Nat) (hwf : p.wf) :
    ((get_frames p n).isAborted = true ↔ n ≥ p.nFreeFrames) ∧
    ((get_frames p n).isAborted = true → (get_frames p n).pool = p) ∧
    ((∀ t < p.nframes, frame_state p.bitmap t = FREE) → p.nFreeFrames = p.nframes →
      1 ≤ n → n < p.nframes →
      ∃ q, get_frames p n = .returned p.base_frame_no q ∧
        p.base_frame_no + n ≤ p.base_frame_no + p.nframes ∧
        q.nFreeFrames = p.nFreeFrames - n) := by
  refine ⟨get_frames_not_aborted_iff p n, ?_, ?_⟩
  · intro h
    rw [get_frames_aborted_pool p n ((get_frames_not_aborted_iff p n).mp h)]
    rfl
  · intro hall hN hn hlt
    obtain ⟨hb, h8, hfw, hov⟩ := hwf
    have hrun : run_free p.bitmap 0 n := fun t _ ht => hall t (by omega)
    have hK : 4 * (p.nframes / 4) = p.nframes := by omega
    have hz : (search p n).frames_to_be_found = 0 := by
      by_contra hc
      exact search_not_found p n hn (by omega) hb (by omega) hc 0 (by omega) hrun
    obtain ⟨h0, q0, g1, g2, g3, g4, g5, g6, g7, _⟩ :=
      get_frames_found p n hn (by omega) hb (by omega) (by omega) hz
    have h00 : h0 = 0 := by
      by_contra hc
      exact g4 0 (by omega) hrun
    subst h00
    exact ⟨q0, g1, by omega, g7⟩

/-- Instance of the amended C3 on the all-FREE pool at base 100 with `k = 31`. -/
theorem get_frames_exhaustion_witness :
    ((get_frames pool_100_32 31).isAborted = true ↔ 31 ≥ pool_100_32.nFreeFrames) ∧
    ∃ q, get_frames pool_100_32 31 = .returned 100 q ∧ 100 + 31 ≤ 100 + 32 ∧
      q.nFreeFrames = 32 - 31 :=
  have h := get_frames_exhaustion pool_100_32 31 pool_100_32_wf
  ⟨h.1, h.2.2 (fun t _ => pool_100_32_free t) rfl (by decide) (by decide)⟩

/-- C4. Fragmentation: when `n ≥ 1` passes the free-count assertion and the
pool holds no run of `n` consecutive FREE frames, `get_frames(n)` returns 0
without a failed assertion, and the pool, bitmap and `nFreeFrames`, is exactly
as before. -/
theorem get_frames_fragmented (p : Pool) (n : Nat) (hwf : p.wf) (hn : 1 ≤ n)
    (hpre : n < p.nFreeFrames)
    (hno : ∀ a, a + n ≤ p.nframes → ¬ run_free p.bitmap a n) :
    get_frames p n = .returned 0 p := by
  obtain ⟨hb, h8, hfw, hov⟩ := hwf
  have hz : (search p n).frames_to_be_found ≠ 0 := by
    intro hc
    obtain ⟨h0, _, _, _, g4, g5, _⟩ := search_found p n hn (by omega) hb (by omega) hc
    exact hno h0 (by omega) g5
  unfold get_frames
  rw [if_neg (by omega), if_pos hz]

/-- Instance of C4: the fragmented pool has 4 FREE frames but no two in a row. -/
theorem get_frames_fragmented_witness :
    get_frames pool_fragmented 2 = .returned 0 pool_fragmented :=
  get_frames_fragmented pool_fragmented 2 pool_fragmented_wf (by decide) (by decide)
    (fun a ha hrun => by
      have ha8 : a + 2 ≤ 8 := ha
      have ha7 : a < 7 := by omega
      have e0 : ∀ t, t < 8 → t % 2 = 0 → frame_state pool_fragmented.bitmap t ≠ FREE := by
        decide
      by_cases hpar : a % 2 = 0
      · exact e0 a (by omega) hpar (hrun a (Nat.le_refl _) (by omega))
      · exact e0 (a + 1) (by omega) (by omega) (hrun (a + 1) (by omega) (by omega)))

end ContFramePool

namespace ContFramePool

/-! ## `release_frames` -/

theorem wrap_range (p : Pool) (hwf : p.wf) :
    (p.base_frame_no + p.nframes) % WORD = p.base_frame_no + p.nframes :=
  Nat.mod_eq_of_lt hwf.2.2.2

theorem test_head_iff (p : Pool) (f : Nat) (hb : ∀ x, p.bitmap x < 256) :
    ((p.bitmap ((f - p.base_frame_no) / 4) ^^^ (0x40 >>> ((f - p.base_frame_no) % 4 * 2))) &&&
        (0xC0 >>> ((f - p.base_frame_no) % 4 * 2)) = 0xC0 >>> ((f - p.base_frame_no) % 4 * 2))
      ↔ p.state f = HEAD_OF_SEQUENCE :=
  slot_test_head _ (hb _) _ (Nat.mod_lt _ (by decide))

/-- On a frame that is not a head the body of `release_frames` only reports. -/
theorem release_in_not_head (p : Pool) (f : Nat) (hb : ∀ x, p.bitmap x < 256)
    (hst : p.state f ≠ HEAD_OF_SEQUENCE) : release_in p f = (.notHead, p) := by
  unfold release_in
  simp only
  rw [if_neg (fun h => hst ((test_head_iff p f hb).mp h))]

/-- On a head the body of `release_frames` frees that one frame in the bitmap;
the other fields but `nFreeFrames` stay. -/
theorem release_in_head (p : Pool) (f : Nat) (hwf : p.wf)
    (hst : p.state f = HEAD_OF_SEQUENCE) :
    (release_in p f).1 = .released ∧
    (release_in p f).2.base_frame_no = p.base_frame_no ∧
    (release_in p f).2.nframes = p.nframes ∧
    (∀ x, (release_in p f).2.bitmap x < 256) ∧
    (release_in p f).2.nFreeFrames < WORD ∧
    ∀ t, frame_state (release_in p f).2.bitmap t =
      if t = f - p.base_frame_no then FREE else frame_state p.bitmap t := by
  obtain ⟨hb, h8, hfw, hov⟩ := hwf
  have hj : (f - p.base_frame_no) % 4 < 4 := Nat.mod_lt _ (by decide)
  have hb1 := update_byte_lt p.bitmap ((f - p.base_frame_no) / 4)
    (p.bitmap ((f - p.base_frame_no) / 4) &&& (0xFF ^^^ (0xC0 >>> ((f - p.base_frame_no) % 4 * 2))))
    hb (byte_or_lt _ (hb _) ((f - p.base_frame_no) % 4) (by omega)).2.2.2
  have hst1 := frame_state_update p.bitmap ((f - p.base_frame_no) / 4)
    ((f - p.base_frame_no) % 4) 0
    (p.bitmap ((f - p.base_frame_no) / 4) &&& (0xFF ^^^ (0xC0 >>> ((f - p.base_frame_no) % 4 * 2))))
    hj (fun j' hj' => slot_clear _ (hb _) _ hj j' hj')
  have hh : 4 * ((f - p.base_frame_no) / 4) + (f - p.base_frame_no) % 4 = f - p.base_frame_no := by
    omega
  rw [hh] at hst1
  have hrb : ∀ bm left i m, m < WORD → release_bytes bm left i m < WORD := by
    intro bm left
    induction left with
    | zero => intro i m hm; exact hm
    | succ left ih =>
      intro i m hm
      have hbits : ∀ l mask m, m < WORD → (release_bits bm i l mask m).2 < WORD := by
        intro l
        induction l with
        | zero => intro mask m hm; exact hm
        | succ l ihl =>
          intro mask m hm
          unfold release_bits
          split
          · exact ihl _ _ (Nat.mod_lt _ (by decide))
          · exact hm
      unfold release_bytes
      simp only
      split
      · exact hbits _ _ _ hm
      · exact ih _ _ (hbits _ _ _ hm)
  have hsb : ∀ bm bi left j mask m, m < WORD →
      (release_same_byte bm bi left j mask m).2 < WORD := by
    intro bm bi left
    induction left with
    | zero => intro j mask m hm; exact hm
    | succ left ih =>
      intro j mask m hm
      unfold release_same_byte
      by_cases h1 : j < 4
      · rw [if_pos h1]
        by_cases h2 : bm bi &&& (if mask = mask then 1 else 0) ≠ 0
        · rw [if_pos h2]
          exact ih _ _ _ (Nat.mod_lt _ (by decide))
        · rw [if_neg h2]
          exact hm
      · rw [if_neg h1]
        exact hm
  unfold release_in
  simp only
  rw [if_pos ((test_head_iff p f hb).mpr hst)]
  split
  · exact ⟨rfl, rfl, rfl, hb1, hsb _ _ _ _ _ _ (Nat.mod_lt _ (by decide)), hst1⟩
  · exact ⟨rfl, rfl, rfl, hb1, hrb _ _ _ _ (hsb _ _ _ _ _ _ (Nat.mod_lt _ (by decide))), hst1⟩

/-- The loop over the list of pools stops at the pool whose range holds the
frame, when no pool before it does, and runs the body on that pool alone. -/
theorem release_frames_owner (pre post : List Pool) (p : Pool) (f : Nat)
    (hpre : ∀ q ∈ pre, q.wf ∧ ¬ in_pool q f) (hp : p.wf) (hin : in_pool p f) :
    release_frames (pre ++ p :: post) f
      = ((release_in p f).1, pre ++ (release_in p f).2 :: post) := by
  induction pre with
  | nil =>
    show release_frames (p :: post) f = _
    unfold release_frames
    rw [wrap_range p hp, if_neg (by unfold in_pool at hin; omega)]
    rfl
  | cons a pre ih =>
    have ha := hpre a (List.mem_cons_self _ _)
    have ih1 := ih (fun q hq => hpre q (List.mem_cons_of_mem _ hq))
    have hcond : a.base_frame_no > f ∨ (a.base_frame_no + a.nframes) % WORD ≤ f := by
      rw [wrap_range a ha.1]
      have := ha.2
      unfold in_pool at this
      omega
    cases hpp : pre ++ p :: post with
    | nil => simp at hpp
    | cons b rest =>
      rw [hpp] at ih1
      show release_frames (a :: (pre ++ p :: post)) f = _
      rw [hpp]
      unfold release_frames
      rw [if_pos hcond]
      simp only
      rw [ih1]
      rfl

theorem disjoint_ranges_before (pre post : List Pool) (p : Pool) (f : Nat)
    (hd : disjoint_ranges (pre ++ p :: post)) (hin : in_pool p f) :
    ∀ q ∈ pre, ¬ in_pool q f := by
  intro q hq hqf
  unfold disjoint_ranges at hd
  rw [List.pairwise_append] at hd
  exact hd.2.2 q hq p (List.mem_cons_self _ _) f ⟨hqf, hin⟩

end ContFramePool

namespace ContFramePool

theorem pool_0_64_wf : pool_0_64.wf :=
  ⟨fun _ => by show (0 : Nat) < 256; decide, by decide, by decide, by decide⟩

theorem pool_64_128_wf : pool_64_128.wf :=
  ⟨fun x => by unfold pool_64_128; dsimp only; split <;> decide, by decide, by decide,
    by decide⟩

theorem two_pools_wf (a b : Pool) (ha : a.wf) (hb : b.wf) : ∀ q ∈ [a, b], q.wf := by
  intro q hq
  simp only [List.mem_cons, List.mem_singleton, List.not_mem_nil, or_false] at hq
  rcases hq with rfl | rfl
  · exact ha
  · exact hb

theorem two_pools_disjoint_a : disjoint_ranges [pool_0_64, pool_64_128] := by
  unfold disjoint_ranges
  refine List.Pairwise.cons ?_ (List.pairwise_singleton _ _)
  intro b hb f hf
  simp only [List.mem_singleton] at hb
  subst hb
  have h1 : f < 0 + 64 := hf.1.2
  have h2 : 64 ≤ f := hf.2.1
  omega

theorem two_pools_disjoint_b : disjoint_ranges [pool_64_128, pool_0_64] := by
  unfold disjoint_ranges
  refine List.Pairwise.cons ?_ (List.pairwise_singleton _ _)
  intro b hb f hf
  simp only [List.mem_singleton] at hb
  subst hb
  have h1 : f < 0 + 64 := hf.2.2
  have h2 : 64 ≤ f := hf.1.1
  omega

/-- C5, evaluated on the spec's scenario (pool at base 100, 32 frames, all
FREE): `get_frames(5)` returns 100 and leaves `nFreeFrames = 27`; the
`release_frames(100)` that follows frees frame 100 only, leaves the frames
101 .. 104 ALLOCATED_CONTINUATION and sets `nFreeFrames` to 35, so neither the
bitmap nor the count is back at its value before the allocation. -/
theorem release_frames_round_trip_fails :
    get_frames pool_100_32 5 = .returned 100 (get_frames pool_100_32 5).pool ∧
    (get_frames pool_100_32 5).pool.nFreeFrames = 27 ∧
    (release_frames [(get_frames pool_100_32 5).pool] 100).1 = .released ∧
    (release_frames [(get_frames pool_100_32 5).pool] 100).2.map
        (fun q => (q.nFreeFrames, q.state 100, q.state 101, q.state 102, q.state 103,
          q.state 104))
      = [(35, FREE, ALLOCATED_CONTINUATION, ALLOCATED_CONTINUATION, ALLOCATED_CONTINUATION,
          ALLOCATED_CONTINUATION)] :=
  ⟨rfl, by decide, by decide, by decide⟩

/-- C6. `release_frames(f)` on a frame `f` of a registered pool whose state is
not HEAD_OF_SEQUENCE ends in the "Not a head of sequence" branch and changes
no pool of the list; and a second `release_frames(h)` right after the release
of a head `h` ends in that branch too and changes nothing. -/
theorem release_frames_rejects_non_head (pre post : List Pool) (p : Pool) (f : Nat)
    (hwf : ∀ q ∈ pre ++ p :: post, q.wf) (hd : disjoint_ranges (pre ++ p :: post))
    (hin : in_pool p f) :
    (p.state f ≠ HEAD_OF_SEQUENCE →
      release_frames (pre ++ p :: post) f = (.notHead, pre ++ p :: post)) ∧
    (p.state f = HEAD_OF_SEQUENCE →
      (release_frames (pre ++ p :: post) f).1 = .released ∧
      release_frames (release_frames (pre ++ p :: post) f).2 f
        = (.notHead, (release_frames (pre ++ p :: post) f).2)) := by
  have hp : p.wf := hwf p (List.mem_append_right _ (List.mem_cons_self _ _))
  have hpre : ∀ q ∈ pre, q.wf ∧ ¬ in_pool q f := fun q hq =>
    ⟨hwf q (List.mem_append_left _ hq), disjoint_ranges_before pre post p f hd hin q hq⟩
  have hown := release_frames_owner pre post p f hpre hp hin
  constructor
  · intro hst
    rw [hown, release_in_not_head p f hp.1 hst]
  · intro hst
    obtain ⟨r1, r2, r3, r4, r5, r6⟩ := release_in_head p f hp hst
    have hq : (release_in p f).2.wf := ⟨r4, by rw [r3]; exact hp.2.1, r5, by
      rw [r2, r3]; exact hp.2.2.2⟩
    have hqin : in_pool (release_in p f).2 f := by
      unfold in_pool at *
      rw [r2, r3]
      exact hin
    have hqst : (release_in p f).2.state f ≠ HEAD_OF_SEQUENCE := by
      unfold Pool.state
      rw [r2, r6, if_pos rfl]
      decide
    rw [hown]
    refine ⟨r1, ?_⟩
    show release_frames (pre ++ (release_in p f).2 :: post) f = _
    rw [release_frames_owner pre post _ f hpre hq hqin, release_in_not_head _ f r4 hqst]

/-- Instance of C6 in the two-pool scenario: frame 71 of the second pool is
FREE, frame 70 is a head. -/
theorem release_frames_rejects_non_head_witness :
    release_frames [pool_0_64, pool_64_128] 71 = (.notHead, [pool_0_64, pool_64_128]) ∧
    release_frames (release_frames [pool_0_64, pool_64_128] 70).2 70
      = (.notHead, (release_frames [pool_0_64, pool_64_128] 70).2) :=
  ⟨(release_frames_rejects_non_head [pool_0_64] [] pool_64_128 71
      (two_pools_wf _ _ pool_0_64_wf pool_64_128_wf) two_pools_disjoint_a
      ⟨by decide, by decide⟩).1 (by decide),
   ((release_frames_rejects_non_head [pool_0_64] [] pool_64_128 70
      (two_pools_wf _ _ pool_0_64_wf pool_64_128_wf) two_pools_disjoint_a
      ⟨by decide, by decide⟩).2 (by decide)).2⟩

/-- C10. Owner resolution: in a list of pools with pairwise disjoint frame
ranges, whatever the order, `release_frames(f)` for a frame `f` of pool `P`
runs its body on `P` alone: outcome and new state of `P` are those of the body
on `P`, and every other pool of the list is left as it was. -/
theorem release_frames_owner_only (pre post : List Pool) (p : Pool) (f : Nat)
    (hwf : ∀ q ∈ pre ++ p :: post, q.wf) (hd : disjoint_ranges (pre ++ p :: post))
    (hin : in_pool p f) :
    release_frames (pre ++ p :: post) f
      = ((release_in p f).1, pre ++ (release_in p f).2 :: post) :=
  release_frames_owner pre post p f
    (fun q hq => ⟨hwf q (List.mem_append_left _ hq),
      disjoint_ranges_before pre post p f hd hin q hq⟩)
    (hwf p (List.mem_append_right _ (List.mem_cons_self _ _))) hin

/-- Instance of C10: with the pools `[0,64)` and `[64,128)` registered in
either order, `release_frames(70)` acts on the pool with base 64, whose frame
at offset 6 goes from HEAD_OF_SEQUENCE to FREE. -/
theorem release_frames_owner_only_witness :
    release_frames (register (register [] pool_0_64) pool_64_128) 70
      = (.released, [pool_0_64, (release_in pool_64_128 70).2]) ∧
    release_frames (register (register [] pool_64_128) pool_0_64) 70
      = (.released, [(release_in pool_64_128 70).2, pool_0_64]) ∧
    frame_state pool_64_128.bitmap 6 = HEAD_OF_SEQUENCE ∧
    frame_state (release_in pool_64_128 70).2.bitmap 6 = FREE :=
  ⟨release_frames_owner_only [pool_0_64] [] pool_64_128 70
      (two_pools_wf _ _ pool_0_64_wf pool_64_128_wf) two_pools_disjoint_a
      ⟨by decide, by decide⟩,
   release_frames_owner_only [] [pool_0_64] pool_64_128 70
      (two_pools_wf _ _ pool_64_128_wf pool_0_64_wf) two_pools_disjoint_b
      ⟨by decide, by decide⟩,
   by decide, by decide⟩

end ContFramePool

namespace ContFramePool

/-! ## `mark_inaccessible` -/

/-- The one-frame overload on a FREE frame of the pool. -/
theorem mark_inaccessible_frame_ok (p : Pool) (f : Nat) (hwf : p.wf) (hin : in_pool p f)
    (hfree : p.state f = FREE) :
    ∃ q, mark_inaccessible_frame p f = .returned () q ∧ q.wf ∧
      q.base_frame_no = p.base_frame_no ∧ q.nframes = p.nframes ∧
      (q.nFreeFrames + 1) % WORD = p.nFreeFrames ∧
      ∀ t, frame_state q.bitmap t =
        if t = f - p.base_frame_no then INACCESSIBLE else frame_state p.bitmap t := by
  have hwf0 := hwf
  obtain ⟨hb, h8, hfw, hov⟩ := hwf
  have hj : (f - p.base_frame_no) % 4 < 4 := Nat.mod_lt _ (by decide)
  have hfree0 : slot (p.bitmap ((f - p.base_frame_no) / 4)) ((f - p.base_frame_no) % 4) = 0 := hfree
  have hb1 := update_byte_lt p.bitmap ((f - p.base_frame_no) / 4)
    ((p.bitmap ((f - p.base_frame_no) / 4) ||| (0xC0 >>> (2 * ((f - p.base_frame_no) % 4)))) ^^^
      (0x80 >>> (2 * ((f - p.base_frame_no) % 4))))
    hb (byte_or_lt _ (hb _) ((f - p.base_frame_no) % 4) (by omega)).2.2.1
  have hst1 := frame_state_update p.bitmap ((f - p.base_frame_no) / 4)
    ((f - p.base_frame_no) % 4) 1
    ((p.bitmap ((f - p.base_frame_no) / 4) ||| (0xC0 >>> (2 * ((f - p.base_frame_no) % 4)))) ^^^
      (0x80 >>> (2 * ((f - p.base_frame_no) % 4))))
    hj (fun j' hj' => slot_inaccessible _ (hb _) _ hj j' hj' hfree0)
  have hh : 4 * ((f - p.base_frame_no) / 4) + (f - p.base_frame_no) % 4 = f - p.base_frame_no := by
    omega
  rw [hh] at hst1
  have htest := (slot_test_free _ (hb ((f - p.base_frame_no) / 4)) _ hj).mpr hfree0
  have hgf : mark_inaccessible_frame p f = .returned ()
      { p with
        bitmap := Function.update p.bitmap ((f - p.base_frame_no) / 4)
          ((p.bitmap ((f - p.base_frame_no) / 4) |||
              (0xC0 >>> (2 * ((f - p.base_frame_no) % 4)))) ^^^
            (0x80 >>> (2 * ((f - p.base_frame_no) % 4))))
        nFreeFrames := (p.nFreeFrames + (WORD - 1)) % WORD } := by
    unfold mark_inaccessible_frame
    rw [wrap_range p hwf0, if_neg (not_not.mpr ⟨hin.1, hin.2⟩)]
    simp only
    rw [if_neg (not_not.mpr htest)]
  refine ⟨_, hgf, ⟨hb1, h8, Nat.mod_lt _ (by decide), hov⟩, rfl, rfl, ?_, hst1⟩
  show ((p.nFreeFrames + (WORD - 1)) % WORD + 1) % WORD = p.nFreeFrames
  unfold WORD at *
  omega

/-- The one-frame overload on any other frame fails an assertion. -/
theorem mark_inaccessible_frame_abort (p : Pool) (f : Nat) (hwf : p.wf)
    (h : ¬ (in_pool p f ∧ p.state f = FREE)) :
    mark_inaccessible_frame p f = .aborted p := by
  unfold mark_inaccessible_frame
  rw [wrap_range p hwf]
  by_cases hin : f ≥ p.base_frame_no ∧ f < p.base_frame_no + p.nframes
  · rw [if_neg (not_not.mpr hin)]
    simp only
    have hj : (f - p.base_frame_no) % 4 < 4 := Nat.mod_lt _ (by decide)
    rw [if_pos]
    intro htest
    exact h ⟨hin, (slot_test_free _ (hwf.1 _) _ hj).mp htest⟩
  · rw [if_pos hin]

theorem mark_inaccessible_loop_spec : ∀ (n b : Nat) (p : Pool), p.wf →
    ((mark_inaccessible_loop n b p).isAborted = false ↔
      ∀ f, b ≤ f → f < b + n → in_pool p f ∧ p.state f = FREE) ∧
    ((mark_inaccessible_loop n b p).isAborted = false →
      (mark_inaccessible_loop n b p).pool.wf ∧
      (mark_inaccessible_loop n b p).pool.base_frame_no = p.base_frame_no ∧
      (mark_inaccessible_loop n b p).pool.nframes = p.nframes ∧
      ((mark_inaccessible_loop n b p).pool.nFreeFrames + n) % WORD = p.nFreeFrames ∧
      ∀ t, frame_state (mark_inaccessible_loop n b p).pool.bitmap t =
        if b ≤ p.base_frame_no + t ∧ p.base_frame_no + t < b + n then INACCESSIBLE
        else frame_state p.bitmap t) := by
  intro n
  induction n with
  | zero =>
    intro b p hwf
    refine ⟨⟨fun _ f h1 h2 => absurd h2 (by omega), fun _ => rfl⟩, fun _ => ?_⟩
    refine ⟨hwf, rfl, rfl, Nat.mod_eq_of_lt hwf.2.2.1, fun t => ?_⟩
    rw [if_neg (by omega)]
    rfl
  | succ n ih =>
    intro b p hwf
    by_cases hok : in_pool p b ∧ p.state b = FREE
    · obtain ⟨q, e, hq, q1, q2, q3, q4⟩ := mark_inaccessible_frame_ok p b hwf hok.1 hok.2
      have hloop : mark_inaccessible_loop (n + 1) b p = mark_inaccessible_loop n (b + 1) q := by
        show (match mark_inaccessible_frame p b with
          | .aborted q => Outcome.aborted q
          | .returned _ q => mark_inaccessible_loop n (b + 1) q) = _
        rw [e]
      rw [hloop]
      obtain ⟨i1, i2⟩ := ih (b + 1) q hq
      have hbase : p.base_frame_no ≤ b := hok.1.1
      have hstq : ∀ f, b + 1 ≤ f → (in_pool q f ∧ q.state f = FREE ↔
          in_pool p f ∧ p.state f = FREE) := by
        intro f hf
        unfold in_pool Pool.state
        rw [q1, q2, q4, if_neg (by omega)]
      constructor
      · rw [i1]
        constructor
        · intro h f hf1 hf2
          by_cases hfb : f = b
          · subst hfb; exact hok
          · exact (hstq f (by omega)).mp (h f (by omega) (by omega))
        · intro h f hf1 hf2
          exact (hstq f hf1).mpr (h f (by omega) (by omega))
      · intro hna
        obtain ⟨j1, j2, j3, j4, j5⟩ := i2 hna
        refine ⟨j1, by rw [j2, q1], by rw [j3, q2], ?_, ?_⟩
        · have hqw := hq.2.2.1
          have hpw := hwf.2.2.1
          unfold WORD at *
          omega
        · intro t
          rw [j5, q4, q1]
          by_cases c1 : b + 1 ≤ p.base_frame_no + t ∧ p.base_frame_no + t < b + 1 + n
          · rw [if_pos c1, if_pos (by omega)]
          · rw [if_neg c1]
            by_cases c2 : t = b - p.base_frame_no
            · rw [if_pos c2, if_pos (by omega)]
            · rw [if_neg c2, if_neg (by omega)]
    · have e := mark_inaccessible_frame_abort p b hwf hok
      have hloop : mark_inaccessible_loop (n + 1) b p = .aborted p := by
        show (match mark_inaccessible_frame p b with
          | .aborted q => Outcome.aborted q
          | .returned _ q => mark_inaccessible_loop n (b + 1) q) = _
        rw [e]
      rw [hloop]
      constructor
      · constructor
        · intro h; cases h
        · intro h
          exact absurd (h b (Nat.le_refl _) (by omega)) hok
      · intro h; cases h

/-- C7. `mark_inaccessible(base, n)` completes without a failed assertion
exactly when every frame of `[base, base+n)` lies in the pool's range and is
FREE before the call; when it completes, each of those frames is INACCESSIBLE
(bits 01, neither HEAD_OF_SEQUENCE nor ALLOCATED_CONTINUATION), every other
frame of the pool has the state it had, and `nFreeFrames` has gone down by
exactly `n` (in 32-bit arithmetic, and as a number when it was at least `n`). -/
theorem mark_inaccessible_range (p : Pool) (b n : Nat) (hwf : p.wf) (hr : b + n < WORD) :
    ((mark_inaccessible p b n).isAborted = false ↔
      ∀ f, b ≤ f → f < b + n → in_pool p f ∧ p.state f = FREE) ∧
    ((mark_inaccessible p b n).isAborted = false →
      (∀ f, b ≤ f → f < b + n → (mark_inaccessible p b n).pool.state f = INACCESSIBLE) ∧
      (∀ f, in_pool p f → ¬ (b ≤ f ∧ f < b + n) →
        (mark_inaccessible p b n).pool.state f = p.state f) ∧
      ((mark_inaccessible p b n).pool.nFreeFrames + n) % WORD = p.nFreeFrames ∧
      (n ≤ p.nFreeFrames → (mark_inaccessible p b n).pool.nFreeFrames + n = p.nFreeFrames)) ∧
    INACCESSIBLE ≠ HEAD_OF_SEQUENCE ∧ INACCESSIBLE ≠ ALLOCATED_CONTINUATION := by
  have htrip : (b + n) % WORD - b = n := by
    rw [Nat.mod_eq_of_lt hr]; omega
  unfold mark_inaccessible
  rw [htrip]
  obtain ⟨i1, i2⟩ := mark_inaccessible_loop_spec n b p hwf
  refine ⟨i1, fun hna => ?_, by decide, by decide⟩
  obtain ⟨j1, j2, j3, j4, j5⟩ := i2 hna
  have hall := i1.mp hna
  refine ⟨?_, ?_, j4, ?_⟩
  · intro f hf1 hf2
    have hin := (hall f hf1 hf2).1
    unfold in_pool at hin
    unfold Pool.state
    rw [j2, j5, if_pos (by omega)]
  · intro f hin hout
    unfold in_pool at hin
    unfold Pool.state
    rw [j2, j5, if_neg (by omega)]
  · intro hle
    have hqw := j1.2.2.1
    have hpw := hwf.2.2.1
    unfold WORD at *
    omega

/-- Instance of C7: frames 104 .. 106 of the all-FREE pool at base 100. -/
theorem mark_inaccessible_range_witness :
    (mark_inaccessible pool_100_32 104 3).isAborted = false ∧
    (∀ f, 104 ≤ f → f < 104 + 3 →
      (mark_inaccessible pool_100_32 104 3).pool.state f = INACCESSIBLE) ∧
    (mark_inaccessible pool_100_32 104 3).pool.nFreeFrames + 3 = 32 :=
  have h := mark_inaccessible_range pool_100_32 104 3 pool_100_32_wf (by decide)
  ⟨by decide, (h.2.1 (by decide)).1, (h.2.1 (by decide)).2.2.2 (by decide)⟩

end ContFramePool

namespace ContFramePool

/-! ## INACCESSIBLE frames under `get_frames` and `release_frames` -/

/-- A `get_frames(n)` with `n ≥ 1` leaves every INACCESSIBLE frame as it is,
and such a frame is not in the run that a successful call returns. -/
theorem get_frames_keeps_inaccessible (p : Pool) (n x : Nat) (hwf : p.wf) (hn : 1 ≤ n)
    (hx : frame_state p.bitmap x = INACCESSIBLE) :
    frame_state (get_frames p n).pool.bitmap x = INACCESSIBLE ∧
    ((search p n).frames_to_be_found = 0 → ∀ h q, get_frames p n = .returned h q →
      ¬ (h ≤ p.base_frame_no + x ∧ p.base_frame_no + x < h + n)) := by
  obtain ⟨hb, h8, hfw, hov⟩ := hwf
  by_cases hpre : p.nFreeFrames ≤ n
  · rw [get_frames_aborted_pool p n hpre]
    exact ⟨hx, fun _ h q e => by cases e⟩
  · by_cases hz : (search p n).frames_to_be_found = 0
    · obtain ⟨h0, q0, g1, g2, g3, g4, g5, g6, g7, g8, g9⟩ :=
        get_frames_found p n hn (by omega) hb (by omega) (by omega) hz
      have hout : ¬ (h0 ≤ x ∧ x < h0 + n) := by
        intro hc
        have := g3 x hc.1 hc.2
        rw [hx] at this
        exact absurd this (by decide)
      rw [g1]
      refine ⟨?_, fun _ h q e => ?_⟩
      · show frame_state q0.bitmap x = INACCESSIBLE
        rw [g9, if_neg (by omega), if_neg (by omega)]
        exact hx
      · injection e with e1 e2
        omega
    · have e : get_frames p n = .returned 0 p := by
        unfold get_frames
        rw [if_neg (by omega), if_pos hz]
      rw [e]
      exact ⟨hx, fun hc => absurd hc hz⟩

/-- The body of `release_frames` leaves every INACCESSIBLE frame as it is. -/
theorem release_in_keeps_inaccessible (p : Pool) (f : Nat) (hwf : p.wf) :
    (release_in p f).2.base_frame_no = p.base_frame_no ∧
    (release_in p f).2.nframes = p.nframes ∧
    ∀ t, frame_state p.bitmap t = INACCESSIBLE →
      frame_state (release_in p f).2.bitmap t = INACCESSIBLE := by
  by_cases hst : p.state f = HEAD_OF_SEQUENCE
  · obtain ⟨_, r2, r3, _, _, r6⟩ := release_in_head p f hwf hst
    refine ⟨r2, r3, fun t ht => ?_⟩
    rw [r6]
    by_cases c : t = f - p.base_frame_no
    · subst c
      have : frame_state p.bitmap (f - p.base_frame_no) = HEAD_OF_SEQUENCE := hst
      rw [this] at ht
      exact absurd ht (by decide)
    · rw [if_neg c]; exact ht
  · rw [release_in_not_head p f hwf.1 hst]
    exact ⟨rfl, rfl, fun t ht => ht⟩

/-- `release_frames` leaves every INACCESSIBLE frame of every pool as it is. -/
theorem release_frames_keeps_inaccessible (pools : List Pool) (f : Nat)
    (hwf : ∀ q ∈ pools, q.wf) :
    List.Forall₂ (fun q q1 => q1.base_frame_no = q.base_frame_no ∧ q1.nframes = q.nframes ∧
        ∀ t, frame_state q.bitmap t = INACCESSIBLE → frame_state q1.bitmap t = INACCESSIBLE)
      pools (release_frames pools f).2 := by
  induction pools with
  | nil => exact List.Forall₂.nil
  | cons p rest ih =>
    have hrefl : ∀ l : List Pool, List.Forall₂ (fun q q1 => q1.base_frame_no = q.base_frame_no ∧
        q1.nframes = q.nframes ∧
        ∀ t, frame_state q.bitmap t = INACCESSIBLE → frame_state q1.bitmap t = INACCESSIBLE)
        l l := fun l => List.forall₂_same.mpr (fun q _ => ⟨rfl, rfl, fun t ht => ht⟩)
    have ih1 := ih (fun q hq => hwf q (List.mem_cons_of_mem _ hq))
    unfold release_frames
    by_cases hc : p.base_frame_no > f ∨ (p.base_frame_no + p.nframes) % WORD ≤ f
    · rw [if_pos hc]
      cases rest with
      | nil => exact hrefl [p]
      | cons b rest1 => exact List.Forall₂.cons ⟨rfl, rfl, fun t ht => ht⟩ ih1
    · rw [if_neg hc]
      exact List.Forall₂.cons
        (release_in_keeps_inaccessible p f (hwf p (List.mem_cons_self _ _))) (hrefl rest)

/-- C8, evaluated. The self-managed pool of 8 frames at base 512 is used up by
`get_frames(3)`, `release_frames(513)`, `get_frames(1)`, `get_frames(4)`: no
frame is FREE, `nFreeFrames` is 2 and frame 512 is INACCESSIBLE. The call
`get_frames(0)` then passes the assertion, returns 512 and leaves frame 512,
like every frame of the pool, ALLOCATED_CONTINUATION. -/
theorem get_frames_zero_overwrites_inaccessible :
    exhausted_pool.map (fun p =>
        (p.nFreeFrames, (List.range 8).map (frame_state p.bitmap), p.state 512,
          (get_frames p 0).isAborted, (get_frames p 0).pool.state 512,
          (search p 0).frames_to_be_found))
      = some (2, [INACCESSIBLE, HEAD_OF_SEQUENCE, ALLOCATED_CONTINUATION,
          ALLOCATED_CONTINUATION, HEAD_OF_SEQUENCE, ALLOCATED_CONTINUATION,
          ALLOCATED_CONTINUATION, ALLOCATED_CONTINUATION], INACCESSIBLE, false,
          ALLOCATED_CONTINUATION, 0) := by
  decide!

/-! ## The constructor -/

theorem init_bitmap_spec (n : Nat) : ∀ (left i : Nat) (bm : Nat → Nat),
    i + left = (n + 3) / 4 →
    ∀ x, init_bitmap n left i bm x = if i ≤ x ∧ x < (n + 3) / 4 then 0 else bm x := by
  intro left
  induction left with
  | zero =>
    intro i bm hi x
    rw [if_neg (by omega)]
    rfl
  | succ left ih =>
    intro i bm hi x
    unfold init_bitmap
    rw [if_pos (by omega), ih (i + 1) _ (by omega) x]
    by_cases c1 : i + 1 ≤ x ∧ x < (n + 3) / 4
    · rw [if_pos c1, if_pos (by omega)]
    · rw [if_neg c1]
      by_cases c2 : x = i
      · subst c2
        rw [Function.update_same, if_pos (by omega)]
      · rw [Function.update_noteq c2, if_neg (by omega)]

/-- After the initialising loop every frame of the pool is FREE. -/
theorem init_bitmap_free (n : Nat) (mem : Nat → Nat) (t : Nat) (ht : t < n) :
    frame_state (init_bitmap n ((n + 3) / 4) 0 mem) t = FREE := by
  have hlt : t / 4 < (n + 3) / 4 := by omega
  unfold frame_state
  rw [init_bitmap_spec n ((n + 3) / 4) 0 mem (by omega) (t / 4), if_pos ⟨Nat.zero_le _, hlt⟩]
  simp [slot, FREE]

theorem init_bitmap_lt (n : Nat) (mem : Nat → Nat) (hm : ∀ x, mem x < 256) (x : Nat) :
    init_bitmap n ((n + 3) / 4) 0 mem x < 256 := by
  rw [init_bitmap_spec n ((n + 3) / 4) 0 mem (by omega) x]
  split
  · decide
  · exact hm x

/-- Part (a) of the construction result: with an external info frame the
constructor yields a pool whose frames are all FREE, `nFreeFrames = n`. -/
theorem construct_external (mem : Nat → Nat) (base n info k : Nat)
    (h1 : n ≤ FRAME_SIZE * 8) (h2 : n % 8 = 0) (hinfo : info ≠ 0) :
    ∃ p, construct mem base n info k = some p ∧ p.base_frame_no = base ∧ p.nframes = n ∧
      p.nFreeFrames = n ∧ ∀ t < n, frame_state p.bitmap t = FREE := by
  have hc : construct mem base n info k = some (initial_pool mem base n info k) := by
    unfold construct
    rw [if_neg (not_not.mpr h1), if_neg (not_not.mpr h2)]
    simp only
    rw [if_neg hinfo]
  exact ⟨_, hc, rfl, rfl, rfl, fun t ht => init_bitmap_free n mem t ht⟩

/-- Part (c) of the construction result: self-managed with `n_info_frames = 0`
and at least one frame, the pool's first frame is INACCESSIBLE, the others are
FREE and `nFreeFrames = n - 1`. -/
theorem construct_self_first_frame (mem : Nat → Nat) (base n : Nat)
    (h1 : n ≤ FRAME_SIZE * 8) (h2 : n % 8 = 0) (h0 : 0 < n) :
    ∃ p, construct mem base n 0 0 = some p ∧ p.base_frame_no = base ∧ p.nframes = n ∧
      p.nFreeFrames = n - 1 ∧ frame_state p.bitmap 0 = INACCESSIBLE ∧
      ∀ t, 0 < t → t < n → frame_state p.bitmap t = FREE := by
  have hn : n ≤ 32768 := h1
  have hzero : init_bitmap n ((n + 3) / 4) 0 mem 0 = 0 := by
    rw [init_bitmap_spec n ((n + 3) / 4) 0 mem (by omega) 0,
      if_pos ⟨Nat.le_refl _, by omega⟩]
  have hslots : ∀ j1 < 4, slot 0x40 j1 = if j1 = 0 then 1 else slot 0 j1 := by decide
  have hst := frame_state_update (init_bitmap n ((n + 3) / 4) 0 mem) 0 0 1 0x40 (by decide)
    (fun j1 hj1 => by rw [hzero]; exact hslots j1 hj1)
  have hc : construct mem base n 0 0 = some
      { initial_pool mem base n 0 0 with
        bitmap := Function.update (initial_pool mem base n 0 0).bitmap 0 0x40
        nFreeFrames := ((initial_pool mem base n 0 0).nFreeFrames + (WORD - 1)) % WORD } := by
    unfold construct
    rw [if_neg (not_not.mpr h1), if_neg (not_not.mpr h2)]
    simp only [if_true, gt_iff_lt, Nat.lt_irrefl, if_false]
  refine ⟨_, hc, rfl, rfl, ?_, ?_, ?_⟩
  · show (n + (WORD - 1)) % WORD = n - 1
    exact dec_word n h0 (by unfold WORD; omega)
  · show frame_state (Function.update (init_bitmap n ((n + 3) / 4) 0 mem) 0 0x40) 0
      = INACCESSIBLE
    rw [hst 0, if_pos rfl]
    rfl
  · intro t ht0 htn
    show frame_state (Function.update (init_bitmap n ((n + 3) / 4) 0 mem) 0 0x40) t = FREE
    rw [hst t, if_neg (by omega)]
    exact init_bitmap_free n mem t htn

/-- Part (b) of the construction result where the constructor completes:
self-managed at `base_frame_no = 0` with `k` info frames, `0 < k ≤ n`, the
frames `0 .. k-1` are INACCESSIBLE, the others FREE, `nFreeFrames = n - k`. -/
theorem construct_self_info_at_zero (mem : Nat → Nat) (n k : Nat) (hm : ∀ x, mem x < 256)
    (h1 : n ≤ FRAME_SIZE * 8) (h2 : n % 8 = 0) (hk0 : 0 < k) (hkn : k ≤ n) :
    ∃ p, construct mem 0 n 0 k = some p ∧ p.base_frame_no = 0 ∧ p.nframes = n ∧
      p.nFreeFrames + k = n ∧ (∀ t < k, frame_state p.bitmap t = INACCESSIBLE) ∧
      ∀ t, k ≤ t → t < n → frame_state p.bitmap t = FREE := by
  have hn : n ≤ 32768 := h1
  have hwf : (initial_pool mem 0 n 0 k).wf :=
    ⟨init_bitmap_lt n mem hm, h2, by show n < WORD; unfold WORD; omega,
      by show 0 + n < WORD; unfold WORD; omega⟩
  have hr : 0 + k < WORD := by unfold WORD; omega
  have htrip : (0 + k) % WORD - 0 = k := by
    rw [Nat.mod_eq_of_lt hr]; omega
  obtain ⟨i1, i2⟩ := mark_inaccessible_loop_spec k 0 _ hwf
  have hna := i1.mpr (fun f _ hf2 => ⟨⟨Nat.zero_le _, by show f < 0 + n; omega⟩,
    init_bitmap_free n mem (f - 0) (by omega)⟩)
  obtain ⟨j1, j2, j3, j4, j5⟩ := i2 hna
  have hc : construct mem 0 n 0 k
      = some (mark_inaccessible_loop k 0 (initial_pool mem 0 n 0 k)).pool := by
    unfold construct
    rw [if_neg (not_not.mpr h1), if_neg (not_not.mpr h2)]
    simp only
    rw [if_pos trivial, if_pos hk0]
    unfold mark_inaccessible
    rw [htrip]
    revert hna
    cases mark_inaccessible_loop k 0 (initial_pool mem 0 n 0 k) with
    | returned v q => intro _; rfl
    | aborted q => intro h; cases h
  refine ⟨_, hc, j2, j3, ?_, ?_, ?_⟩
  · have hqw := j1.2.2.1
    have j4n : ((mark_inaccessible_loop k 0 (initial_pool mem 0 n 0 k)).pool.nFreeFrames + k)
        % WORD = n := j4
    unfold WORD at *
    omega
  · intro t ht
    rw [j5 t, if_pos ⟨by omega, by show 0 + t < 0 + k; omega⟩]
  · intro t ht1 ht2
    rw [j5 t, if_neg (by show ¬ (0 ≤ 0 + t ∧ 0 + t < 0 + k); omega)]
    exact init_bitmap_free n mem t ht2

/-- The pool of the spec's scenario is what the constructor yields for base
100, 32 frames and an external info frame, over zeroed memory. -/
theorem construct_pool_100_32 : construct (fun _ => 0x00) 100 32 99 1 = some pool_100_32 := by
  have hbm : init_bitmap 32 ((32 + 3) / 4) 0 (fun _ => 0x00) = fun _ => 0x00 := by
    funext x
    rw [init_bitmap_spec 32 ((32 + 3) / 4) 0 _ (by decide) x]
    split <;> rfl
  show some (initial_pool (fun _ => 0x00) 100 32 99 1) = some pool_100_32
  unfold initial_pool pool_100_32
  rw [hbm]

/-- C9, evaluated on part (b): self-managed (`info_frame_no = 0`) with one
info frame at `base_frame_no = 512`, 512 frames. The frame count passes both
assertions of the constructor, but `mark_inaccessible(_info_frame_no, 1)` is
called with frame number 0, outside `[512, 1024)`, and the range assertion
fails: no pool is constructed, whatever the memory held. -/
theorem construct_self_info_frames_aborts (mem : Nat → Nat) :
    512 ≤ FRAME_SIZE * 8 ∧ 512 % 8 = 0 ∧ construct mem 512 512 0 1 = none :=
  ⟨by decide, by decide, rfl⟩

end ContFramePool

namespace ContFramePool

/-! ## A frame that no pool holds -/

/-- C11, as stated, fails: frame 200 lies in the range of no pool of the list
`[pool_0_64]`, and `release_frames(200)` ends in the branch that prints
"Frame not found in any pool." and returns to its caller. -/
theorem release_frames_miss_returns :
    ¬ in_pool pool_0_64 200 ∧ (release_frames [pool_0_64] 200).1 = .notFound ∧
    (release_frames [pool_0_64] 200).1.returns = true :=
  ⟨fun h => absurd h.2 (by decide), by decide, by decide⟩

/-- C11, amended. For every non-empty list of pools and every frame number
that lies in the range of none of them, `release_frames(f)` ends in the branch
that prints "Frame not found in any pool." and returns normally, and no pool,
bitmap or `nFreeFrames`, is modified. -/
theorem release_frames_registry_miss (pools : List Pool) (f : Nat) (hne : pools ≠ [])
    (hwf : ∀ q ∈ pools, q.wf) (hout : ∀ q ∈ pools, ¬ in_pool q f) :
    release_frames pools f = (.notFound, pools) ∧
    (release_frames pools f).1.returns = true := by
  have key : release_frames pools f = (.notFound, pools) := by
    induction pools with
    | nil => exact absurd rfl hne
    | cons p rest ih =>
      have hp := hwf p (List.mem_cons_self _ _)
      have hcond : p.base_frame_no > f ∨ (p.base_frame_no + p.nframes) % WORD ≤ f := by
        rw [wrap_range p hp]
        have := hout p (List.mem_cons_self _ _)
        unfold in_pool at this
        omega
      cases rest with
      | nil =>
        unfold release_frames
        rw [if_pos hcond]
      | cons b rest1 =>
        have ih1 := ih (List.cons_ne_nil _ _) (fun q hq => hwf q (List.mem_cons_of_mem _ hq))
          (fun q hq => hout q (List.mem_cons_of_mem _ hq))
        unfold release_frames
        rw [if_pos hcond]
        simp only
        rw [ih1]
  rw [key]
  exact ⟨rfl, rfl⟩

/-- Instance of the amended C11: frame 200 with the pools `[0,64)` and `[64,128)`. -/
theorem release_frames_registry_miss_witness :
    release_frames [pool_0_64, pool_64_128] 200 = (.notFound, [pool_0_64, pool_64_128]) ∧
    (release_frames [pool_0_64, pool_64_128] 200).1.returns = true :=
  release_frames_registry_miss [pool_0_64, pool_64_128] 200 (List.cons_ne_nil _ _)
    (two_pools_wf _ _ pool_0_64_wf pool_64_128_wf)
    (fun q hq => by
      simp only [List.mem_cons, List.mem_singleton, List.not_mem_nil, or_false] at hq
      rcases hq with rfl | rfl
      · exact fun h => absurd h.2 (by decide)
      · exact fun h => absurd h.2 (by decide))

/-! ## `needed_info_frames` -/

/-- C12. When `2 * n` does not overflow, `needed_info_frames(n)` is
`ceil(2*n / 32768)`, the least `k` with `k * 32768 ≥ 2*n`; in particular
`needed_info_frames(1024) = 1` and `needed_info_frames(0) = 0`. -/
theorem needed_info_frames_ceil (n : Nat) (h : n * 2 < WORD) :
    needed_info_frames n = (2 * n + 32767) / 32768 ∧
    needed_info_frames n * 32768 ≥ 2 * n ∧
    (∀ k, k * 32768 ≥ 2 * n → needed_info_frames n ≤ k) ∧
    needed_info_frames 1024 = 1 ∧ needed_info_frames 0 = 0 := by
  have hc : 8 * 4 * (0x1 <<< 10) = 32768 := by decide
  have heq : needed_info_frames n = (2 * n + 32767) / 32768 := by
    unfold needed_info_frames
    rw [hc, Nat.mod_eq_of_lt h]
    split <;> omega
  refine ⟨heq, ?_, ?_, by decide, by decide⟩
  · rw [heq]; omega
  · intro k hk
    rw [heq]; omega

/-- Instance of C12 at `n = 16385`, one frame more than one bitmap frame covers. -/
theorem needed_info_frames_ceil_witness :
    needed_info_frames 16385 = (2 * 16385 + 32767) / 32768 ∧
    needed_info_frames 16385 * 32768 ≥ 2 * 16385 :=
  have h := needed_info_frames_ceil 16385 (by decide)
  ⟨h.1, h.2.1⟩

/-! ## The cached count of free frames -/

/-- C19, evaluated. The pool at base 100 with 32 frames is constructed with
every frame FREE and `nFreeFrames = 32`; after `get_frames(5)` and
`release_frames(100)` the pool has 28 FREE frames (frames 101 .. 104 are still
ALLOCATED_CONTINUATION) while `nFreeFrames` is 35. -/
theorem free_count_invariant_fails :
    (construct (fun _ => 0x00) 100 32 99 1).map (fun p => (p.nFreeFrames, free_count p))
      = some (32, 32) ∧
    round_trip_pools.map (fun p => (p.nFreeFrames, free_count p)) = [(35, 28)] := by
  decide!

/-! ## One frame from a pool -/

/-- `get_frames(1)` on a pool that passes the assertion and has a FREE frame:
the lowest FREE frame becomes a head and nothing else changes. -/
theorem get_frames_one (p : Pool) (hwf : p.wf) (hfree : 1 < p.nFreeFrames)
    (hex : ∃ b, b < p.nframes ∧ frame_state p.bitmap b = FREE) :
    ∃ h q, get_frames p 1 = .returned (p.base_frame_no + h) q ∧ h < p.nframes ∧
      frame_state p.bitmap h = FREE ∧ (∀ a < h, frame_state p.bitmap a ≠ FREE) ∧
      q.wf ∧ q.base_frame_no = p.base_frame_no ∧ q.nframes = p.nframes ∧
      q.nFreeFrames + 1 = p.nFreeFrames ∧
      ∀ t, frame_state q.bitmap t =
        if t = h then HEAD_OF_SEQUENCE else frame_state p.bitmap t := by
  have hwf0 := hwf
  obtain ⟨hb, h8, hfw, hov⟩ := hwf
  have hK : 4 * (p.nframes / 4) = p.nframes := by omega
  have hz : (search p 1).frames_to_be_found = 0 := by
    by_contra hc
    obtain ⟨b, hb1, hb2⟩ := hex
    refine search_not_found p 1 (Nat.le_refl _) (by unfold WORD; omega) hb (by omega) hc b
      (by omega) (fun t ht1 ht2 => ?_)
    have : t = b := by omega
    subst this
    exact hb2
  obtain ⟨h0, q0, g1, g2, g3, g4, g5, g6, g7, g8, g9⟩ :=
    get_frames_found p 1 (Nat.le_refl _) (by unfold WORD; omega) hb (by omega) hfree hz
  refine ⟨h0, q0, g1, by omega, g3 h0 (Nat.le_refl _) (by omega), ?_,
    ⟨g8, by rw [g6]; exact h8, by rw [g7]; omega, by rw [g5, g6]; exact hov⟩, g5, g6,
    by rw [g7]; omega, ?_⟩
  · intro a ha hfa
    refine g4 a ha (fun t ht1 ht2 => ?_)
    have : t = a := by omega
    subst this
    exact hfa
  · intro t
    rw [g9 t]
    by_cases c : t = h0
    · rw [if_pos c, if_pos c]
    · rw [if_neg c, if_neg c, if_neg (by omega)]

end ContFramePool

namespace PageTable

open ContFramePool

/-! ## Entries and the loops over them -/

theorem entry_addr_eq (p j : Nat) (h : p + 4 * j < WORD) : entry_addr p j = p + 4 * j :=
  Nat.mod_eq_of_lt h

theorem map_shared_untouched (p : Nat) : ∀ (left i ms : Nat) (mem : Nat → Nat) (x : Nat),
    (∀ j, i ≤ j → j < i + left → x ≠ entry_addr p j) →
    map_shared p left i ms mem x = mem x := by
  intro left
  induction left with
  | zero => intro i ms mem x _; rfl
  | succ left ih =>
    intro i ms mem x hx
    unfold map_shared
    rw [ih (i + 1) _ _ x (fun j h1 h2 => hx j (by omega) (by omega)),
      Function.update_noteq (hx i (Nat.le_refl _) (by omega))]

theorem map_shared_written (p : Nat) : ∀ (left i ms : Nat) (mem : Nat → Nat) (j : Nat),
    ms < WORD → i ≤ j → j < i + left →
    (∀ j1 j2, i ≤ j1 → j1 < j2 → j2 < i + left → entry_addr p j1 ≠ entry_addr p j2) →
    map_shared p left i ms mem (entry_addr p j) = ((ms + (j - i) * PAGE_SIZE) % WORD) ||| 3 := by
  intro left
  induction left with
  | zero => intro i ms mem j _ h1 h2 _; omega
  | succ left ih =>
    intro i ms mem j hms h1 h2 hinj
    unfold map_shared
    by_cases hji : j = i
    · subst hji
      rw [map_shared_untouched p left (j + 1) _ _ _
        (fun j2 h3 h4 => hinj j j2 (Nat.le_refl _) (by omega) (by omega)),
        Function.update_same]
      have e : (ms + (j - j) * PAGE_SIZE) % WORD = ms := by
        rw [Nat.sub_self, Nat.zero_mul, Nat.add_zero, Nat.mod_eq_of_lt hms]
      rw [e]
    · rw [ih (i + 1) _ _ j (Nat.mod_lt _ (by decide)) (by omega) (by omega)
        (fun j1 j2 h3 h4 h5 => hinj j1 j2 (by omega) h4 (by omega))]
      have e : ((ms + PAGE_SIZE) % WORD + (j - (i + 1)) * PAGE_SIZE) % WORD
          = (ms + (j - i) * PAGE_SIZE) % WORD := by
        unfold PAGE_SIZE WORD
        omega
      rw [e]

theorem mark_not_present_untouched (p : Nat) : ∀ (left i : Nat) (mem : Nat → Nat) (x : Nat),
    (∀ j, i ≤ j → j < i + left → x ≠ entry_addr p j) →
    mark_not_present p left i mem x = mem x := by
  intro left
  induction left with
  | zero => intro i mem x _; rfl
  | succ left ih =>
    intro i mem x hx
    unfold mark_not_present
    rw [ih (i + 1) _ x (fun j h1 h2 => hx j (by omega) (by omega)),
      Function.update_noteq (hx i (Nat.le_refl _) (by omega))]

theorem zero_table_untouched (p : Nat) : ∀ (left i : Nat) (mem : Nat → Nat) (x : Nat),
    (∀ j, i ≤ j → j < i + left → x ≠ entry_addr p j) →
    zero_table p left i mem x = mem x := by
  intro left
  induction left with
  | zero => intro i mem x _; rfl
  | succ left ih =>
    intro i mem x hx
    unfold zero_table
    rw [ih (i + 1) _ x (fun j h1 h2 => hx j (by omega) (by omega)),
      Function.update_noteq (hx i (Nat.le_refl _) (by omega))]

theorem zero_table_written (p : Nat) : ∀ (left i : Nat) (mem : Nat → Nat) (j : Nat),
    i ≤ j → j < i + left → zero_table p left i mem (entry_addr p j) = 0 := by
  intro left
  induction left with
  | zero => intro i mem j h1 h2; omega
  | succ left ih =>
    intro i mem j h1 h2
    unfold zero_table
    by_cases hji : j = i
    · subst hji
      by_cases hlater : ∃ j2, j + 1 ≤ j2 ∧ j2 < j + 1 + left ∧ entry_addr p j = entry_addr p j2
      · obtain ⟨j2, h3, h4, h5⟩ := hlater
        rw [h5]
        exact ih (j + 1) _ j2 h3 h4
      · rw [zero_table_untouched p left (j + 1) _ _
          (fun j2 h3 h4 h5 => hlater ⟨j2, h3, h4, h5⟩), Function.update_same]
    · exact ih (i + 1) _ j (by omega) (by omega)

/-- The address part of an entry is page aligned and at most `0xFFFFF000`. -/
theorem table_addr_aligned (x : Nat) :
    (x &&& 0xFFFFF000) % 4096 = 0 ∧ x &&& 0xFFFFF000 ≤ 0xFFFFF000 := by
  refine ⟨?_, Nat.and_le_right⟩
  have h := Nat.and_pow_two_sub_one_eq_mod (x &&& 0xFFFFF000) 12
  have h2 : (x &&& 0xFFFFF000) &&& (2 ^ 12 - 1) = 0 := by
    rw [Nat.and_assoc]
    show x &&& (0xFFFFF000 &&& 4095) = 0
    have : (0xFFFFF000 : Nat) &&& 4095 = 0 := by decide
    rw [this, Nat.and_zero]
  rw [h2] at h
  exact h.symm

/-- C18, as stated, fails: with error code 1 (present bit set) the fault
handler returns normally; no assertion fails. -/
theorem handle_fault_protection_returns :
    (1 : Nat) &&& 1 ≠ 0 ∧
    (handle_fault paging_two_pages 1 (513 * PAGE_SIZE) 0x00400000).isAborted = false :=
  ⟨by decide, by decide⟩

/-- C18, amended. For every fault whose error code has the present bit set,
`handle_fault` returns normally, having taken no frame from either pool and
written no directory or table entry: the state is as before. -/
theorem handle_fault_present_bit (s : Paging) (err_code cr3 fault_addr : Nat)
    (h : err_code &&& 1 ≠ 0) :
    handle_fault s err_code cr3 fault_addr = .returned () s := by
  unfold handle_fault
  simp only
  rw [if_neg h]

/-- Instance of the amended C18 with error code 7. -/
theorem handle_fault_present_bit_witness :
    handle_fault paging_two_pages 7 (513 * PAGE_SIZE) 0x00400000
      = .returned () paging_two_pages :=
  handle_fault_present_bit paging_two_pages 7 (513 * PAGE_SIZE) 0x00400000 (by decide)

end PageTable

namespace PageTable

open ContFramePool

theorem kernel_pool_wf : kernel_pool.wf :=
  ⟨fun x => by unfold kernel_pool; dsimp only; split <;> decide, by decide, by decide,
    by decide⟩

/-- The memory after the three writing steps of the constructor, for a
directory in frame `f1` and a first page table in another frame `f2`. -/
theorem construct_memory (f1 f2 sf : Nat) (mem : Nat → Nat) (hne : f1 ≠ f2)
    (h1 : f1 < 2 ^ 20) (h2 : f2 < 2 ^ 20) (hsf : sf ≤ 1024) :
    (∀ i, i < sf →
      mark_not_present (f1 * PAGE_SIZE) (sf - 1) 1
        (Function.update (map_shared (f2 * PAGE_SIZE) sf 0 0 mem)
          (entry_addr (f1 * PAGE_SIZE) 0) ((f2 * PAGE_SIZE) ||| 3))
        (f2 * PAGE_SIZE + 4 * i) = (i * PAGE_SIZE) ||| 3) ∧
    mark_not_present (f1 * PAGE_SIZE) (sf - 1) 1
        (Function.update (map_shared (f2 * PAGE_SIZE) sf 0 0 mem)
          (entry_addr (f1 * PAGE_SIZE) 0) ((f2 * PAGE_SIZE) ||| 3))
        (f1 * PAGE_SIZE) = (f2 * PAGE_SIZE) ||| 3 := by
  have hd : ∀ j, j < 1024 → entry_addr (f1 * PAGE_SIZE) j = f1 * PAGE_SIZE + 4 * j :=
    fun j hj => entry_addr_eq (f1 * PAGE_SIZE) j (by unfold PAGE_SIZE WORD; omega)
  have ht : ∀ j, j < 1024 → entry_addr (f2 * PAGE_SIZE) j = f2 * PAGE_SIZE + 4 * j :=
    fun j hj => entry_addr_eq (f2 * PAGE_SIZE) j (by unfold PAGE_SIZE WORD; omega)
  have hsep : ∀ i j, i < 1024 → j < 1024 →
      f2 * PAGE_SIZE + 4 * i ≠ entry_addr (f1 * PAGE_SIZE) j := by
    intro i j hi hj
    rw [hd j hj]
    unfold PAGE_SIZE
    omega
  constructor
  · intro i hi
    rw [mark_not_present_untouched (f1 * PAGE_SIZE) (sf - 1) 1 _ (f2 * PAGE_SIZE + 4 * i)
        (fun j _ hj2 => hsep i j (by omega) (by omega)),
      Function.update_noteq (hsep i 0 (by omega) (by decide)),
      ← ht i (by omega),
      map_shared_written (f2 * PAGE_SIZE) sf 0 0 mem i (by decide) (Nat.zero_le _) (by omega)
        (fun j1 j2 _ h3 h4 => by
          rw [ht j1 (by omega), ht j2 (by omega)]
          omega)]
    have e : (0 + (i - 0) * PAGE_SIZE) % WORD = i * PAGE_SIZE := by
      unfold PAGE_SIZE WORD; omega
    rw [e]
  · rw [mark_not_present_untouched (f1 * PAGE_SIZE) (sf - 1) 1 _ (f1 * PAGE_SIZE)
        (fun j hj1 hj2 => by
          rw [hd j (by omega)]; omega)]
    have hd0 : entry_addr (f1 * PAGE_SIZE) 0 = f1 * PAGE_SIZE := by
      rw [hd 0 (by decide), Nat.mul_zero, Nat.add_zero]
    rw [hd0, Function.update_same]

/-- C13. For a shared size of at most 1024 pages (a multiple of `PAGE_SIZE`
or not), on a kernel pool that can give two frames, the constructor takes two single
frames from the kernel pool, first `f1` for the directory, then `f2` for the
first page table, writes `(i * PAGE_SIZE) | 3` into entry `i` of that table for
every `i < shared_size / PAGE_SIZE`, and sets directory entry 0 to
`(f2 * PAGE_SIZE) | 3`. -/
theorem construct_shared_mapping (s : Paging) (hk : s.kernel_mem_pool.wf)
    (hlim : s.kernel_mem_pool.base_frame_no + s.kernel_mem_pool.nframes ≤ 2 ^ 20)
    (hfree : 2 < s.kernel_mem_pool.nFreeFrames)
    (hex : ∃ b c, b < c ∧ c < s.kernel_mem_pool.nframes ∧
      frame_state s.kernel_mem_pool.bitmap b = FREE ∧
      frame_state s.kernel_mem_pool.bitmap c = FREE)
    (hsz : s.shared_size / PAGE_SIZE ≤ 1024) :
    ∃ f1 k1 f2 k2, get_frames s.kernel_mem_pool 1 = .returned f1 k1 ∧
      get_frames k1 1 = .returned f2 k2 ∧ f1 ≠ f2 ∧
      in_pool s.kernel_mem_pool f1 ∧ in_pool s.kernel_mem_pool f2 ∧
      s.kernel_mem_pool.state f1 = FREE ∧ s.kernel_mem_pool.state f2 = FREE ∧
      (construct s).isAborted = false ∧
      (construct s).state.kernel_mem_pool = k2 ∧
      k2.nFreeFrames + 2 = s.kernel_mem_pool.nFreeFrames ∧
      (∀ i, i < s.shared_size / PAGE_SIZE →
        (construct s).state.memory (f2 * PAGE_SIZE + 4 * i) = (i * PAGE_SIZE) ||| 3) ∧
      (construct s).state.memory (f1 * PAGE_SIZE) = (f2 * PAGE_SIZE) ||| 3 := by
  obtain ⟨b, c, hbc, hc, hfb, hfc⟩ := hex
  obtain ⟨h0, k1, g1, g2, g3, g4, g5, g6, g7, g8, g9⟩ :=
    get_frames_one s.kernel_mem_pool hk (by omega) ⟨b, by omega, hfb⟩
  have hh0b : h0 ≤ b := by
    by_contra hcon
    exact g4 b (by omega) hfb
  obtain ⟨h1, k2, e1, e2, e3, e4, e5, e6, e7, e8, e9⟩ :=
    get_frames_one k1 g5 (by omega) ⟨c, by rw [g7]; exact hc, by
      rw [g9 c, if_neg (by omega)]; exact hfc⟩
  have hne : h1 ≠ h0 := by
    intro hcon
    rw [hcon, g9 h0, if_pos rfl] at e3
    exact absurd e3 (by decide)
  rw [g6] at e1
  rw [g7] at e2
  have hw1 : ((s.kernel_mem_pool.base_frame_no + h0) * PAGE_SIZE) % WORD
      = (s.kernel_mem_pool.base_frame_no + h0) * PAGE_SIZE :=
    Nat.mod_eq_of_lt (by unfold PAGE_SIZE WORD; omega)
  have hw2 : ((s.kernel_mem_pool.base_frame_no + h1) * PAGE_SIZE) % WORD
      = (s.kernel_mem_pool.base_frame_no + h1) * PAGE_SIZE :=
    Nat.mod_eq_of_lt (by unfold PAGE_SIZE WORD; omega)
  have hres : construct s = .returned ((s.kernel_mem_pool.base_frame_no + h0) * PAGE_SIZE)
      ⟨k2, s.process_mem_pool, s.shared_size,
        mark_not_present ((s.kernel_mem_pool.base_frame_no + h0) * PAGE_SIZE)
          (s.shared_size / PAGE_SIZE - 1) 1
          (Function.update
            (map_shared ((s.kernel_mem_pool.base_frame_no + h1) * PAGE_SIZE)
              (s.shared_size / PAGE_SIZE) 0 0 s.memory)
            (entry_addr ((s.kernel_mem_pool.base_frame_no + h0) * PAGE_SIZE) 0)
            (((s.kernel_mem_pool.base_frame_no + h1) * PAGE_SIZE) ||| 3))⟩ := by
    unfold construct
    rw [g1]
    simp only
    rw [e1]
    simp only
    rw [hw1, hw2]
  obtain ⟨m1, m2⟩ := construct_memory (s.kernel_mem_pool.base_frame_no + h0)
    (s.kernel_mem_pool.base_frame_no + h1) (s.shared_size / PAGE_SIZE) s.memory (by omega)
    (by omega) (by omega) hsz
  refine ⟨_, k1, _, k2, g1, e1, by omega, ⟨by omega, by omega⟩, ⟨by omega, by omega⟩, ?_, ?_,
    by rw [hres]; rfl, by rw [hres]; rfl, by omega, ?_, ?_⟩
  · show frame_state s.kernel_mem_pool.bitmap (s.kernel_mem_pool.base_frame_no + h0
      - s.kernel_mem_pool.base_frame_no) = FREE
    rw [Nat.add_sub_cancel_left]; exact g3
  · show frame_state s.kernel_mem_pool.bitmap (s.kernel_mem_pool.base_frame_no + h1
      - s.kernel_mem_pool.base_frame_no) = FREE
    rw [Nat.add_sub_cancel_left]
    have := e3
    rw [g9 h1, if_neg hne] at this
    exact this
  · intro i hi
    rw [hres]
    exact m1 i hi
  · rw [hres]
    exact m2

/-- Instance of C13: two pages shared, over memory full of `0xFFFFFFFF`; the
directory goes to frame 513, the first page table to frame 514. -/
theorem construct_shared_mapping_witness :
    ∃ f1 k1 f2 k2, get_frames paging_two_pages.kernel_mem_pool 1 = .returned f1 k1 ∧
      get_frames k1 1 = .returned f2 k2 ∧ f1 ≠ f2 ∧
      in_pool paging_two_pages.kernel_mem_pool f1 ∧
      in_pool paging_two_pages.kernel_mem_pool f2 ∧
      paging_two_pages.kernel_mem_pool.state f1 = FREE ∧
      paging_two_pages.kernel_mem_pool.state f2 = FREE ∧
      (construct paging_two_pages).isAborted = false ∧
      (construct paging_two_pages).state.kernel_mem_pool = k2 ∧
      k2.nFreeFrames + 2 = paging_two_pages.kernel_mem_pool.nFreeFrames ∧
      (∀ i, i < paging_two_pages.shared_size / PAGE_SIZE →
        (construct paging_two_pages).state.memory (f2 * PAGE_SIZE + 4 * i)
          = (i * PAGE_SIZE) ||| 3) ∧
      (construct paging_two_pages).state.memory (f1 * PAGE_SIZE) = (f2 * PAGE_SIZE) ||| 3 :=
  construct_shared_mapping paging_two_pages kernel_pool_wf (by decide) (by decide)
    ⟨1, 2, by decide, by decide, by decide, by decide⟩ (by decide)

end PageTable

namespace PageTable

open ContFramePool

/-! ## The fault handler -/

/-- The fault handler when the directory entry is not present, in terms of
what the two calls of `get_frames(1)` return. -/
theorem handle_fault_absent_eq (s : Paging) (err_code cr3 fault_addr f g : Nat) (k q : Pool)
    (herr : err_code &&& 1 = 0)
    (habs : s.memory (entry_addr cr3 (fault_addr >>> 22)) &&& 1 = 0)
    (hf : get_frames s.kernel_mem_pool 1 = .returned f k)
    (hg : get_frames s.process_mem_pool 1 = .returned g q) :
    handle_fault s err_code cr3 fault_addr = .returned ()
      ⟨k, q, s.shared_size,
        Function.update
          (zero_table ((((f * PAGE_SIZE) % WORD) ||| 3) &&& 0xFFFFF000) PAGE_SIZE 0
            (Function.update s.memory (entry_addr cr3 (fault_addr >>> 22))
              (((f * PAGE_SIZE) % WORD) ||| 3)))
          (entry_addr ((((f * PAGE_SIZE) % WORD) ||| 3) &&& 0xFFFFF000)
            ((fault_addr >>> 12) &&& 0x3FF))
          (((g * PAGE_SIZE) % WORD) ||| 3)⟩ := by
  unfold handle_fault
  simp only
  rw [if_pos herr, if_pos habs, hf]
  simp only
  rw [hg, Function.update_same]

theorem entry_addr_other_entry (tbl t j : Nat) (ht : t ≤ 0x3FF)
    (hj : j < 1024) (hne : j ≠ t) : entry_addr tbl j ≠ entry_addr tbl t := by
  unfold entry_addr
  unfold WORD at *
  omega

end PageTable

namespace PageTable

open ContFramePool

/-- C14, evaluated at the spec's witness: a shared size of two pages, over
memory that held `0xFFFFFFFF` in every word. The constructor puts the
directory in frame 513 and the first table in frame 514; its second loop runs
for `i = 1` only, so directory entry 1 is "not present, writable" but the
entries 2 .. 1023 keep the old word, whose present bit is set, and the table
entries from 2 on keep it too: all 1024 table entries are present, not 2. -/
theorem construct_leaves_remainder :
    paging_two_pages.shared_size / PAGE_SIZE = 2 ∧
    (construct paging_two_pages).isAborted = false ∧
    paging_after_construct.memory (entry_addr (513 * PAGE_SIZE) 0) = (514 * PAGE_SIZE) ||| 3 ∧
    paging_after_construct.memory (entry_addr (513 * PAGE_SIZE) 1) = 2 ∧
    paging_after_construct.memory (entry_addr (513 * PAGE_SIZE) 2) = 0xFFFFFFFF ∧
    paging_after_construct.memory (entry_addr (513 * PAGE_SIZE) 2) &&& 1 = 1 ∧
    paging_after_construct.memory (entry_addr (513 * PAGE_SIZE) 1023) = 0xFFFFFFFF ∧
    paging_after_construct.memory (entry_addr (514 * PAGE_SIZE) 2) = 0xFFFFFFFF ∧
    present_entries paging_after_construct.memory (513 * PAGE_SIZE) = 1023 ∧
    present_entries paging_after_construct.memory (514 * PAGE_SIZE) = 1024 := by
  decide!

/-- C20, evaluated: after construction over `paging_two_pages` (directory in
frame 513, first table in frame 514) a not-present fault arrives at address
`0x00400000`, whose directory entry 1 is not present. The handler takes frame
515 for the new table, and its loop of `PAGE_SIZE` = 4096 four-byte writes
clears the frames 515 .. 518: the first word of frame 516 and the last word of
frame 518, both outside frame 515, go from `0xFFFFFFFF` to 0; frame 519 is the
first one left alone. -/
theorem handle_fault_zeroes_four_frames :
    paging_after_construct.memory (entry_addr (513 * PAGE_SIZE) 1) &&& 1 = 0 ∧
    get_frames paging_after_construct.kernel_mem_pool 1
      = .returned 515 (get_frames paging_after_construct.kernel_mem_pool 1).pool ∧
    (handle_fault paging_after_construct 0 (513 * PAGE_SIZE) 0x00400000).isAborted = false ∧
    515 * PAGE_SIZE + PAGE_SIZE - 1 < 516 * PAGE_SIZE ∧
    paging_after_construct.memory (516 * PAGE_SIZE) = 0xFFFFFFFF ∧
    (handle_fault paging_after_construct 0 (513 * PAGE_SIZE) 0x00400000).state.memory
      (516 * PAGE_SIZE) = 0 ∧
    paging_after_construct.memory (518 * PAGE_SIZE + 4092) = 0xFFFFFFFF ∧
    (handle_fault paging_after_construct 0 (513 * PAGE_SIZE) 0x00400000).state.memory
      (518 * PAGE_SIZE + 4092) = 0 ∧
    (handle_fault paging_after_construct 0 (513 * PAGE_SIZE) 0x00400000).state.memory
      (519 * PAGE_SIZE) = 0xFFFFFFFF := by
  refine ⟨by decide!, rfl, by decide!, by decide, by decide!, by decide!, by decide!,
    by decide!, by decide!⟩

/-- C15, evaluated on the run `fault_below_directory`: the directory is in
frame 514, the lowest FREE frame of the kernel pool is 513, and directory
entry 1 is not present. The handler takes frame 513 for the new table and
returns; its clearing loop runs over the frames 513 .. 516, so afterwards
directory entry 1 is 0, not `(513 * PAGE_SIZE) | 3`, and directory entry 0,
which was `(515 * PAGE_SIZE) | 3`, is 0 as well. The leaf entry 0 of the new
table holds `(1024 * PAGE_SIZE) | 3`. -/
theorem handle_fault_clears_directory :
    fault_below_directory.map (fun x =>
        (x.1.memory (entry_addr (514 * PAGE_SIZE) 1) &&& 1,
          (match get_frames x.1.kernel_mem_pool 1 with
            | .returned f _ => f
            | .aborted _ => 0),
          x.1.memory (entry_addr (514 * PAGE_SIZE) 0)))
      = some (0, 513, (515 * PAGE_SIZE) ||| 3) ∧
    fault_below_directory.map (fun x =>
        (x.2.isAborted, x.2.state.memory (entry_addr (514 * PAGE_SIZE) 1),
          x.2.state.memory (entry_addr (514 * PAGE_SIZE) 0),
          x.2.state.memory (entry_addr (513 * PAGE_SIZE) 0)))
      = some (false, 0, 0, (1024 * PAGE_SIZE) ||| 3) ∧
    (513 * PAGE_SIZE) ||| 3 ≠ 0 := by
  refine ⟨by decide!, by decide!, by decide⟩

end PageTable

namespace PageTable

open ContFramePool

/-- Masking a 32-bit word with `0xFFFFF000` clears its low 12 bits. -/
theorem mask_page (x : Nat) (hx : x < WORD) : x &&& 0xFFFFF000 = x - x % 4096 := by
  obtain ⟨ta, _⟩ := table_addr_aligned x
  have hB : x &&& (2 ^ 12 - 1) = x % 2 ^ 12 := Nat.and_pow_two_sub_one_eq_mod x 12
  have hx32 : x &&& (2 ^ 32 - 1) = x % 2 ^ 32 := Nat.and_pow_two_sub_one_eq_mod x 32
  have hall : (0xFFFFF000 ||| (2 ^ 12 - 1) : Nat) = 2 ^ 32 - 1 := by decide
  have hsum := Nat.and_or_distrib_left x 0xFFFFF000 (2 ^ 12 - 1)
  rw [hall, hx32, hB] at hsum
  have key : ∀ y, y % 4096 = 0 → x % 2 ^ 32 = y ||| (x % 2 ^ 12) → y = x - x % 4096 := by
    intro y hy1 hy2
    have hy : y = 2 ^ 12 * (y / 4096) := by omega
    rw [hy, ← Nat.mul_add_lt_is_or (Nat.mod_lt _ (by decide)) _] at hy2
    unfold WORD at hx
    omega
  exact key _ ta hsum

/-- The table address read back from the directory entry that was just
written with frame `f` is the address of frame `f`. -/
theorem table_of_entry (f : Nat) (hf : f < 2 ^ 20) :
    (((f * PAGE_SIZE) % WORD) ||| 3) &&& 0xFFFFF000 = f * PAGE_SIZE := by
  have hw : (f * PAGE_SIZE) % WORD = 2 ^ 12 * f := by
    unfold PAGE_SIZE WORD; omega
  rw [hw, ← Nat.mul_add_lt_is_or (by decide) _, mask_page _ (by unfold WORD; omega)]
  unfold PAGE_SIZE
  omega

/-- What the claim C15 describes does hold when the page directory does not
lie in the four frames that the clearing loop runs over: for a not-present
fault whose directory entry is not present, with pools that can each give a
frame, `handle_fault` takes one frame `f` from the kernel pool and one frame
`g` from the process pool, sets the directory entry to `(f * PAGE_SIZE) | 3`,
leaves the other directory entries as they were, and leaves the table in frame
`f` with the entry of the faulting page at `(g * PAGE_SIZE) | 3` and its other
1023 entries 0. -/
theorem handle_fault_unbacked_region (s : Paging) (err_code cr3 fault_addr : Nat)
    (herr : err_code &&& 1 = 0)
    (habs : s.memory (entry_addr cr3 (fault_addr >>> 22)) &&& 1 = 0)
    (hfa : fault_addr < WORD) (hcr3 : cr3 % PAGE_SIZE = 0) (hcr3w : cr3 < WORD)
    (hkw : s.kernel_mem_pool.wf)
    (hlim : s.kernel_mem_pool.base_frame_no + s.kernel_mem_pool.nframes + 3 ≤ 2 ^ 20)
    (hkfree : 1 < s.kernel_mem_pool.nFreeFrames)
    (hkex : ∃ b, b < s.kernel_mem_pool.nframes ∧ frame_state s.kernel_mem_pool.bitmap b = FREE)
    (hpw : s.process_mem_pool.wf) (hpfree : 1 < s.process_mem_pool.nFreeFrames)
    (hpex : ∃ b, b < s.process_mem_pool.nframes ∧
      frame_state s.process_mem_pool.bitmap b = FREE)
    (hdir : ∀ f k, get_frames s.kernel_mem_pool 1 = .returned f k →
      cr3 + PAGE_SIZE ≤ f * PAGE_SIZE ∨ f * PAGE_SIZE + 4 * PAGE_SIZE ≤ cr3) :
    ∃ f k g q, get_frames s.kernel_mem_pool 1 = .returned f k ∧
      get_frames s.process_mem_pool 1 = .returned g q ∧
      (handle_fault s err_code cr3 fault_addr).isAborted = false ∧
      (handle_fault s err_code cr3 fault_addr).state.kernel_mem_pool = k ∧
      (handle_fault s err_code cr3 fault_addr).state.process_mem_pool = q ∧
      k.nFreeFrames + 1 = s.kernel_mem_pool.nFreeFrames ∧
      q.nFreeFrames + 1 = s.process_mem_pool.nFreeFrames ∧
      (handle_fault s err_code cr3 fault_addr).state.memory
        (entry_addr cr3 (fault_addr >>> 22)) = ((f * PAGE_SIZE) % WORD) ||| 3 ∧
      (∀ i, i < 1024 → i ≠ fault_addr >>> 22 →
        (handle_fault s err_code cr3 fault_addr).state.memory (entry_addr cr3 i)
          = s.memory (entry_addr cr3 i)) ∧
      (handle_fault s err_code cr3 fault_addr).state.memory
        (entry_addr (f * PAGE_SIZE) ((fault_addr >>> 12) &&& 0x3FF))
          = ((g * PAGE_SIZE) % WORD) ||| 3 ∧
      (∀ j, j < 1024 → j ≠ (fault_addr >>> 12) &&& 0x3FF →
        (handle_fault s err_code cr3 fault_addr).state.memory (entry_addr (f * PAGE_SIZE) j)
          = 0) := by
  obtain ⟨h0, k, g1, g2, g3, g4, g5, g6, g7, g8, g9⟩ :=
    get_frames_one s.kernel_mem_pool hkw hkfree hkex
  obtain ⟨h1, q, e1, e2, e3, e4, e5, e6, e7, e8, e9⟩ :=
    get_frames_one s.process_mem_pool hpw hpfree hpex
  have hres := handle_fault_absent_eq s err_code cr3 fault_addr _ _ k q herr habs g1 e1
  have hf20 : s.kernel_mem_pool.base_frame_no + h0 < 2 ^ 20 := by omega
  rw [table_of_entry _ hf20] at hres
  have hsepd := hdir _ k g1
  have ht : (fault_addr >>> 12) &&& 0x3FF ≤ 0x3FF := Nat.and_le_right
  have hd : fault_addr >>> 22 < 1024 := by
    rw [Nat.shiftRight_eq_div_pow]
    unfold WORD at hfa
    omega
  -- addresses of the table in frame `f` and of the directory
  have hT : ∀ j, j < 4096 → entry_addr ((s.kernel_mem_pool.base_frame_no + h0) * PAGE_SIZE) j
      = (s.kernel_mem_pool.base_frame_no + h0) * PAGE_SIZE + 4 * j :=
    fun j hj => entry_addr_eq _ j (by unfold PAGE_SIZE WORD; omega)
  have hD : ∀ i, i < 1024 → entry_addr cr3 i = cr3 + 4 * i :=
    fun i hi => entry_addr_eq cr3 i (by unfold PAGE_SIZE at hcr3; unfold WORD at *; omega)
  have hDT : ∀ i j, i < 1024 → j < 4096 → entry_addr cr3 i
      ≠ entry_addr ((s.kernel_mem_pool.base_frame_no + h0) * PAGE_SIZE) j := by
    intro i j hi hj
    rw [hD i hi, hT j hj]
    unfold PAGE_SIZE at *
    omega
  refine ⟨_, k, _, q, g1, e1, by rw [hres]; rfl, by rw [hres]; rfl, by rw [hres]; rfl, g8, e8,
    ?_, ?_, ?_, ?_⟩
  · rw [hres]
    show Function.update _ _ _ _ = _
    rw [Function.update_noteq (hDT _ _ hd (by omega)),
      zero_table_untouched _ _ _ _ _ (fun j _ hj => hDT _ j hd (by unfold PAGE_SIZE at hj; omega)),
      Function.update_same]
  · intro i hi hid
    rw [hres]
    show Function.update _ _ _ _ = _
    rw [Function.update_noteq (hDT _ _ hi (by omega)),
      zero_table_untouched _ _ _ _ _ (fun j _ hj => hDT _ j hi (by unfold PAGE_SIZE at hj; omega)),
      Function.update_noteq (by rw [hD i hi, hD _ hd]; omega)]
  · rw [hres]
    exact Function.update_same _ _ _
  · intro j hj hjt
    rw [hres]
    show Function.update _ _ _ _ = _
    rw [Function.update_noteq (entry_addr_other_entry _ _ j ht hj hjt),
      zero_table_written _ _ 0 _ j (Nat.zero_le _) (by unfold PAGE_SIZE; omega)]

end PageTable
